import Mathlib

/-!
PUFlib core (`src/puflib.c`): module registry, nonvolatile store manager,
reporting channel and query channel.

A shallow embedding of `puflib.c`.  C strings are lists of characters read up
to the first NUL, the heap block of `get_nv_filename` is a list of cells, the
process state (errno, the two callback slots, the filesystem, the allocator) is
an explicit record passed through every operation, and the platform layer
(`platform.h`) is a record of primitives.
-/

namespace PUFlib

/-! ## C strings and the `<string.h>` functions the file calls -/

/-- The terminating byte of a C string. -/
def NUL : Char := Char.ofNat 0

/-- The string a `char const *` denotes: the cells before the first NUL (the
end of the list stands for the terminator of a string given without one). -/
def cstr (m : List Char) : List Char :=
  m.takeWhile (fun c => decide (c ≠ NUL))

/-- A list that is a C string as it stands: no NUL inside. -/
def IsCStr (s : List Char) : Prop := ∀ c ∈ s, c ≠ NUL

instance (s : List Char) : Decidable (IsCStr s) := by
  unfold IsCStr; infer_instance

/-- C `strlen`: the number of cells before the first NUL. -/
def strlen (m : List Char) : Nat := (cstr m).length

/-- C `strcmp`: the difference of the first two cells that differ, the
terminator (a NUL cell or the end of the list) counting as 0; 0 when both
strings end together. -/
def strcmp : List Char → List Char → Int
  | [], [] => 0
  | [], b :: _ => 0 - (b.toNat : Int)
  | a :: _, [] => (a.toNat : Int)
  | a :: as, b :: bs =>
    if a = b then (if a = NUL then 0 else strcmp as bs)
    else (a.toNat : Int) - (b.toNat : Int)

/-- C `strncpy(dest, src, n)`: writes exactly `n` cells at the start of `dest`,
the first `min n (strlen src)` from `src` and NUL in the rest (no terminator
when `strlen src ≥ n`).  `dest` is the memory from the destination address on;
cells written beyond its end make the list longer. -/
def strncpy (dest src : List Char) (n : Nat) : List Char :=
  (cstr src).take n ++ List.replicate (n - strlen src) NUL ++ dest.drop n

/-- C `strncat(dest, src, n)`: finds the terminator of `dest`, copies at most
`n` characters of `src` there and then always writes a NUL; so it writes
`min n (strlen src) + 1` cells from offset `strlen dest` on, whatever the size
of the destination block.  Cells written beyond the end of `dest` make the
list longer. -/
def strncat (dest src : List Char) (n : Nat) : List Char :=
  dest.take (strlen dest) ++ (cstr src).take n ++ [NUL]
    ++ dest.drop (strlen dest + min n (strlen src) + 1)

/-! ## Module registry -/

/-- Modelled from the spec: `module_info` is declared in `puflib.h`, which is
not among the sources.  The core reads only `name`; `payload` stands for the
module-specific fields, which the core never reads. -/
structure module_info where
  name : List Char
  payload : Nat
deriving DecidableEq, Repr

/-- Function `puflib_get_modules` (puflib.c:45): the registry array itself.  A cell of
the array is a pointer, `none` being NULL. -/
def puflib_get_modules (PUFLIB_MODULES : List (Option module_info)) :
    List (Option module_info) :=
  PUFLIB_MODULES

/-- Function `puflib_get_module` (puflib.c:51): the loop
`for (i = 0; PUFLIB_MODULES[i]; ++i) if (!strcmp(PUFLIB_MODULES[i]->name, name)) return PUFLIB_MODULES[i];`
followed by `return NULL`.  The loop ends at the first NULL cell; an array
given without one is read to its end. -/
def puflib_get_module : List (Option module_info) → List Char → Option module_info
  | [], _ => none
  | none :: _, _ => none
  | some m :: rest, name =>
    if strcmp m.name name = 0 then some m else puflib_get_module rest name

/-! ## Process state and the platform layer -/

/-- Result of running a piece of the C code: it either completes with a value,
or does something the C language leaves undefined (a write outside the
allocated block, a call through a null function pointer). -/
inductive Outcome (α : Type) where
  | ok (a : α)
  | undefined
deriving Repr

/-- Sequencing of C statements: nothing is defined after undefined behaviour. -/
def Outcome.bind {α β : Type} (x : Outcome α) (f : α → Outcome β) : Outcome β :=
  match x with
  | .ok a => f a
  | .undefined => .undefined

/-- The `errno.h` value (Linux) for "no such file or directory". -/
def ENOENT : Int := 2
/-- The `errno.h` value (Linux) for "out of memory". -/
def ENOMEM : Int := 12
/-- The `errno.h` value (Linux) for "permission denied". -/
def EACCES : Int := 13
/-- The `errno.h` value (Linux) for "file exists". -/
def EEXIST : Int := 17
/-- The `errno.h` value (Linux) for "not a directory". -/
def ENOTDIR : Int := 20
/-- The `errno.h` value (Linux) for "is a directory". -/
def EISDIR : Int := 21
/-- The `errno.h` value (Linux) for "directory not empty". -/
def ENOTEMPTY : Int := 39

/-- What a platform primitive hands back: its return value, the filesystem
after the call and the value of errno after the call. -/
structure Ret (α FS : Type) where
  val : α
  fs : FS
  errno : Int

/-- The platform layer (`platform.h`, not among the sources) and the libc
calls that touch the filesystem or errno, taken as parameters.  A primitive
maps its arguments, the filesystem and the current errno to a `Ret`.
`free` gives the value of errno after `free()` as a function of the value
before: puflib.c saves and restores errno around `free`, so it may change. -/
structure Platform (FS File : Type) where
  puflib_get_nv_store_path : List Char
  puflib_get_path_sep : List Char
  puflib_create_directory_tree : List Char → FS → Int → Ret Int FS
  puflib_create_and_open : List Char → List Char → FS → Int → Ret (Option File) FS
  puflib_open_existing : List Char → List Char → FS → Int → Ret (Option File) FS
  puflib_check_access : List Char → Int → FS → Int → Ret Int FS
  puflib_delete_tree : List Char → FS → Int → Ret Int FS
  remove : List Char → FS → Int → Ret Int FS
  free : Int → Int

/-- A call of a platform primitive, as recorded in the state. -/
inductive PlatformCall where
  | create_directory_tree (path : List Char)
  | create_and_open (path mode : List Char)
  | open_existing (path mode : List Char)
  | check_access (path : List Char) (mode : Int)
  | delete_tree (path : List Char)
  | remove (path : List Char)
deriving DecidableEq, Repr

/-- A host query handler (`puflib_query_handler_p`): from the module, key,
prompt, buffer contents, capacity and errno to its result, the buffer
afterwards and errno afterwards. -/
abbrev QueryHandler :=
  module_info → List Char → List Char → List Char → Nat → Int → Bool × List Char × Int

/-- The process state puflib.c works on.
* `errno`: the system error code.
* `fs`: the filesystem the platform primitives act on.
* `mallocs`: the outcomes of the coming allocation requests, in order (`false`
  = the request fails); when the list is used up, requests succeed.
* `garbage`: the contents of freshly allocated memory, by offset.
* `STATUS_CALLBACK`, `QUERY_CALLBACK`: the two file-scope slots, `none` = NULL.
  A status handler is known by an identifier; calling it appends to
  `delivered`.
* `calls`: the platform primitives called so far.
* `delivered`: the messages passed to a status handler so far, each with the
  handler that got it. -/
structure State (FS : Type) where
  errno : Int
  fs : FS
  mallocs : List Bool
  garbage : Nat → Char
  STATUS_CALLBACK : Option Nat
  QUERY_CALLBACK : Option QueryHandler
  calls : List PlatformCall
  delivered : List (Nat × List Char)

/-- Whether the next allocation request fails. -/
def State.malloc_fails {FS : Type} (s : State FS) : Bool :=
  !(s.mallocs.headD true)

/-- C `malloc(n)`: on failure NULL with errno = ENOMEM; on success a block of
`n` cells of unspecified contents. -/
def malloc {FS : Type} (s : State FS) (n : Nat) : Option (List Char) × State FS :=
  if s.malloc_fails then
    (none, { s with mallocs := s.mallocs.tail, errno := ENOMEM })
  else
    (some ((List.range n).map s.garbage), { s with mallocs := s.mallocs.tail })

/-- Runs a platform primitive on the state: the call is recorded, the
filesystem and errno are replaced by what the primitive hands back. -/
def State.run {FS α : Type} (s : State FS) (call : PlatformCall)
    (prim : FS → Int → Ret α FS) : α × State FS :=
  let r := prim s.fs s.errno
  (r.val, { s with fs := r.fs, errno := r.errno, calls := s.calls ++ [call] })

/-- The state after `free(p)` for a non-null `p`: only errno may change. -/
def State.free {FS File : Type} (P : Platform FS File) (s : State FS) : State FS :=
  { s with errno := P.free s.errno }

/-! ## NV store manager -/

/-- The size `get_nv_filename` allocates (puflib.c:31):
`strlen(nvstore) + strlen(module->name) + 2`.  Both strings lie in memory with
their terminators, so the sum does not wrap around `size_t`. -/
def get_nv_filename_buflen (nvstore name : List Char) : Nat :=
  strlen nvstore + strlen name + 2

/-- The three string calls of `get_nv_filename` (puflib.c:38-40) on the block
`buf` that `malloc` returned: the memory from `buf` on after `strncpy`, after
the first `strncat` and after the second.  Each call is given `buflen` as its
bound.  A list longer than `buflen` means the call wrote past the block. -/
def get_nv_filename_writes (nvstore sep name buf : List Char) :
    List Char × List Char × List Char :=
  let buflen := get_nv_filename_buflen nvstore name
  let buf1 := strncpy buf nvstore buflen
  let buf2 := strncat buf1 sep buflen
  let buf3 := strncat buf2 name buflen
  (buf1, buf2, buf3)

/-- Function `get_nv_filename` (puflib.c:28): NULL when `malloc` fails (errno is then
ENOMEM), otherwise the string the three calls leave in the block.  Writing
past the block of `buflen` cells is undefined behaviour. -/
def get_nv_filename {FS File : Type} (P : Platform FS File) (module : module_info)
    (s : State FS) : Outcome (Option (List Char) × State FS) :=
  let nvstore := P.puflib_get_nv_store_path
  let buflen := get_nv_filename_buflen nvstore module.name
  match malloc s buflen with
  | (none, s1) => .ok (none, s1)
  | (some buf, s1) =>
    let w := get_nv_filename_writes nvstore P.puflib_get_path_sep module.name buf
    if buflen < w.1.length ∨ buflen < w.2.1.length ∨ buflen < w.2.2.length then
      .undefined
    else
      .ok (some (cstr w.2.2), s1)

/-- Function `puflib_create_nv_store` (puflib.c:74). -/
def puflib_create_nv_store {FS File : Type} (P : Platform FS File)
    (module : module_info) (s : State FS) : Outcome (Option File × State FS) :=
  (get_nv_filename P module s).bind fun
    | (none, s1) => .ok (none, s1)
    | (some filename, s1) =>
      let (rc, s2) := s1.run (.create_directory_tree P.puflib_get_nv_store_path)
        (P.puflib_create_directory_tree P.puflib_get_nv_store_path)
      if rc ≠ 0 then
        -- free(filename); return NULL;
        .ok (none, s2.free P)
      else
        let (f, s3) := s2.run (.create_and_open filename "r+".toList)
          (P.puflib_create_and_open filename "r+".toList)
        let errno_hold := s3.errno
        let s4 := s3.free P
        .ok (f, { s4 with errno := errno_hold })

/-- Function `puflib_get_nv_store` (puflib.c:95). -/
def puflib_get_nv_store {FS File : Type} (P : Platform FS File)
    (module : module_info) (s : State FS) : Outcome (Option File × State FS) :=
  (get_nv_filename P module s).bind fun
    | (none, s1) => .ok (none, s1)
    | (some filename, s1) =>
      let (f, s2) := s1.run (.open_existing filename "r+".toList)
        (P.puflib_open_existing filename "r+".toList)
      let errno_hold := s2.errno
      let s3 := s2.free P
      .ok (f, { s3 with errno := errno_hold })

/-- Function `puflib_delete_nv_store` (puflib.c:111). -/
def puflib_delete_nv_store {FS File : Type} (P : Platform FS File)
    (module : module_info) (s : State FS) : Outcome (Bool × State FS) :=
  (get_nv_filename P module s).bind fun
    | (none, s1) => .ok (true, s1)
    | (some filename, s1) =>
      let (rc, s2) := s1.run (.remove filename) (P.remove filename)
      if rc ≠ 0 then
        let errno_temp := s2.errno
        let s3 := s2.free P
        .ok (true, { s3 with errno := errno_temp })
      else
        .ok (false, s2.free P)

/-- Function `puflib_create_nv_store_dir` (puflib.c:130). -/
def puflib_create_nv_store_dir {FS File : Type} (P : Platform FS File)
    (module : module_info) (s : State FS) : Outcome (Option (List Char) × State FS) :=
  (get_nv_filename P module s).bind fun
    | (none, s1) => .ok (none, s1)
    | (some filename, s1) =>
      let (rc, s2) := s1.run (.create_directory_tree filename)
        (P.puflib_create_directory_tree filename)
      if rc ≠ 0 then
        let errno_temp := s2.errno
        let s3 := s2.free P
        .ok (none, { s3 with errno := errno_temp })
      else
        .ok (some filename, s2)

/-- Function `puflib_get_nv_store_dir` (puflib.c:148). -/
def puflib_get_nv_store_dir {FS File : Type} (P : Platform FS File)
    (module : module_info) (s : State FS) : Outcome (Option (List Char) × State FS) :=
  (get_nv_filename P module s).bind fun
    | (none, s1) => .ok (none, s1)
    | (some filename, s1) =>
      let (rc, s2) := s1.run (.check_access filename 1) (P.puflib_check_access filename 1)
      if rc ≠ 0 then
        let s3 := s2.free P
        .ok (none, { s3 with errno := EACCES })
      else
        .ok (some filename, s2)

/-- Function `puflib_delete_nv_store_dir` (puflib.c:165).  The success branch returns
without `free`. -/
def puflib_delete_nv_store_dir {FS File : Type} (P : Platform FS File)
    (module : module_info) (s : State FS) : Outcome (Bool × State FS) :=
  (get_nv_filename P module s).bind fun
    | (none, s1) => .ok (true, s1)
    | (some filename, s1) =>
      let (rc, s2) := s1.run (.delete_tree filename) (P.puflib_delete_tree filename)
      if rc ≠ 0 then
        let errno_temp := s2.errno
        let s3 := s2.free P
        .ok (true, { s3 with errno := errno_temp })
      else
        .ok (false, s2)

/-- StorePath in the spec's words: `join(store_root, path_separator,
module.name)`. -/
def StorePath (store_root path_separator name : List Char) : List Char :=
  store_root ++ path_separator ++ name

/-! ## Reporting channel and query channel -/

/-- Modelled from the spec: the enumerators of `enum puflib_status_level` are
declared in `puflib.h`, which is not among the sources; the spec lists the
closed enumeration as {Info, Warn, Error}, numbered as C numbers enumerators. -/
def STATUS_INFO : Int := 0
/-- Modelled from the spec: second enumerator of `enum puflib_status_level`. -/
def STATUS_WARN : Int := 1
/-- Modelled from the spec: third enumerator of `enum puflib_status_level`. -/
def STATUS_ERROR : Int := 2

/-- Modelled from the spec: the formatting engine behind `puflib_asprintf` and
`puflib_vasprintf` (declared in `misc.h`, not among the sources), for the
directives `%s` (the next argument, a C string) and `%%`.  `pending` says that
the previous character was an unfinished `%`.  Any other directive, a `%` at
the end of the template and a `%s` without an argument are rendering failures
(`none`). -/
def render : Bool → List Char → List (List Char) → Option (List Char)
  | false, [], _ => some []
  | true, [], _ => none
  | false, c :: rest, args =>
    if c = '%' then render true rest args
    else (render false rest args).map (fun out => c :: out)
  | true, c :: rest, args =>
    if c = 's' then
      match args with
      | a :: args' => (render false rest args').map (fun out => cstr a ++ out)
      | [] => none
    else if c = '%' then (render false rest args).map (fun out => c :: out)
    else none

/-- Modelled from the spec: `puflib_vasprintf(&formatted, fmt, ap)` of
`misc.h` (not among the sources): renders the template into a freshly
allocated string.  Returns a negative value and no string when rendering fails
(encoding failure or allocation failure), otherwise the length of the string
and the string. -/
def puflib_vasprintf {FS : Type} (s : State FS) (fmt : List Char)
    (ap : List (List Char)) : Int × Option (List Char) × State FS :=
  match render false (cstr fmt) ap with
  | none => (-1, none, s)
  | some out =>
    match malloc s (out.length + 1) with
    | (none, s1) => (-1, none, s1)
    | (some _, s1) => ((out.length : Int), some out, s1)

/-- Modelled from the spec: `puflib_asprintf(&formatted, fmt, ...)` of `misc.h`
(not among the sources), the variadic form of `puflib_vasprintf`. -/
def puflib_asprintf {FS : Type} (s : State FS) (fmt : List Char)
    (args : List (List Char)) : Int × Option (List Char) × State FS :=
  puflib_vasprintf s fmt args

/-- The call `STATUS_CALLBACK(message)`: undefined when the slot is NULL,
otherwise the handler in the slot receives the message. -/
def call_STATUS_CALLBACK {FS : Type} (s : State FS) (message : List Char) :
    Outcome (State FS) :=
  match s.STATUS_CALLBACK with
  | none => .undefined
  | some handler => .ok { s with delivered := s.delivered ++ [(handler, message)] }

/-- The string literal of puflib.c:203 and puflib.c:220. -/
def internal_error_message : List Char :=
  "error (puflib): internal error formatting message".toList

/-- The `switch (level)` of `puflib_report` (puflib.c:187-198). -/
def level_as_string (level : Int) : List Char :=
  if level = STATUS_INFO then "info".toList
  else if level = STATUS_WARN then "warn".toList
  else "error".toList

/-- The statements `if (formatted) free(formatted);` and `free(formatted)`. -/
def free_if {FS File : Type} (P : Platform FS File) (formatted : Option (List Char))
    (s : State FS) : State FS :=
  match formatted with
  | some _ => s.free P
  | none => s

/-- Function `puflib_report` (puflib.c:183). -/
def puflib_report {FS File : Type} (P : Platform FS File) (module : module_info)
    (level : Int) (message : List Char) (s : State FS) : Outcome (State FS) :=
  match puflib_asprintf s "%s (%s): %s".toList
      [level_as_string level, module.name, message] with
  | (rc, formatted, s1) =>
    if rc < 0 then
      call_STATUS_CALLBACK (free_if P formatted s1) internal_error_message
    else
      (call_STATUS_CALLBACK s1 (formatted.getD [])).bind fun s2 =>
        .ok (free_if P formatted s2)

/-- Function `puflib_report_fmt` (puflib.c:211); `ap` are the variadic arguments. -/
def puflib_report_fmt {FS File : Type} (P : Platform FS File) (module : module_info)
    (level : Int) (fmt : List Char) (ap : List (List Char)) (s : State FS) :
    Outcome (State FS) :=
  match puflib_vasprintf s fmt ap with
  | (rc, formatted, s1) =>
    if rc < 0 then
      call_STATUS_CALLBACK (free_if P formatted s1) internal_error_message
    else
      (puflib_report P module level (formatted.getD []) s1).bind fun s2 =>
        .ok (free_if P formatted s2)

/-- Function `puflib_set_status_handler` (puflib.c:62). -/
def puflib_set_status_handler {FS : Type} (callback : Option Nat) (s : State FS) :
    State FS :=
  { s with STATUS_CALLBACK := callback }

/-- Function `puflib_set_query_handler` (puflib.c:68). -/
def puflib_set_query_handler {FS : Type} (callback : Option QueryHandler)
    (s : State FS) : State FS :=
  { s with QUERY_CALLBACK := callback }

/-- Function `puflib_query` (puflib.c:234): the result, the buffer after the call and
the state after the call. -/
def puflib_query {FS : Type} (module : module_info) (key prompt buffer : List Char)
    (buflen : Nat) (s : State FS) : Bool × List Char × State FS :=
  match s.QUERY_CALLBACK with
  | some callback =>
    let r := callback module key prompt buffer buflen s.errno
    (r.1, r.2.1, { s with errno := r.2.2 })
  | none => (true, buffer, { s with errno := 0 })

/-! ## A filesystem for the platform layer -/

/-- A filesystem: regular files by path with their bytes, and the directories
by path. -/
structure FileSystem where
  files : List (List Char × List Nat)
  dirs : List (List Char)
deriving DecidableEq, Repr

/-- The bytes of the regular file at `path`, if there is one. -/
def FileSystem.content (fs : FileSystem) (path : List Char) : Option (List Nat) :=
  (fs.files.find? (fun e => decide (e.1 = path))).map (fun e => e.2)

/-- Whether a regular file is at `path`. -/
def FileSystem.isFile (fs : FileSystem) (path : List Char) : Bool :=
  (fs.content path).isSome

/-- Whether a directory is at `path`. -/
def FileSystem.isDir (fs : FileSystem) (path : List Char) : Bool :=
  decide (path ∈ fs.dirs)

/-- Sets the bytes of the regular file at `path`, creating the file if needed. -/
def FileSystem.put (fs : FileSystem) (path : List Char) (bytes : List Nat) : FileSystem :=
  { fs with files := (path, bytes) :: fs.files.filter (fun e => decide (e.1 ≠ path)) }

/-- The directories above `path`: its proper non-empty beginnings that end
where an occurrence of the separator starts, shortest first. -/
def ancestors (sep path : List Char) : List (List Char) :=
  ((List.range path.length).filter
    (fun i => decide (0 < i) && !sep.isEmpty && sep.isPrefixOf (path.drop i))).map
    (fun i => path.take i)

/-- Whether `path` is `dir` or lies below it. -/
def under (sep dir path : List Char) : Bool :=
  decide (path = dir) || (!sep.isEmpty && (dir ++ sep).isPrefixOf path)

/-- An open stream (`FILE *`): the path it was opened on and its position. -/
structure FILE where
  path : List Char
  pos : Nat
deriving DecidableEq, Repr

/-- Modelled from the spec: `puflib_create_directory_tree` of the platform
layer (not among the sources), "recursive directory creation", "idempotent if
already present".  Fails when the path or a directory above it is a regular
file; otherwise makes the path and every directory above it. -/
def spec_create_directory_tree (sep path : List Char) (fs : FileSystem) (errno : Int) :
    Ret Int FileSystem :=
  if fs.isFile path then ⟨-1, fs, EEXIST⟩
  else if (ancestors sep path).any fs.isFile then ⟨-1, fs, ENOTDIR⟩
  else
    ⟨0, { fs with dirs := fs.dirs ++
        (ancestors sep path ++ [path]).filter (fun d => !fs.isDir d) }, errno⟩

/-- Modelled from the spec: `puflib_create_and_open` of the platform layer (not
among the sources), "create-or-truncate-and-open".  Fails on a directory and
when the directory above the path is missing; otherwise the file is made empty
and a stream at position 0 is returned. -/
def spec_create_and_open (sep path _mode : List Char) (fs : FileSystem) (errno : Int) :
    Ret (Option FILE) FileSystem :=
  if fs.isDir path then ⟨none, fs, EISDIR⟩
  else
    match (ancestors sep path).getLast? with
    | some parent =>
      if fs.isDir parent then ⟨some ⟨path, 0⟩, fs.put path [], errno⟩
      else ⟨none, fs, ENOENT⟩
    | none => ⟨some ⟨path, 0⟩, fs.put path [], errno⟩

/-- Modelled from the spec: `puflib_open_existing` of the platform layer (not
among the sources), "open-existing": a stream at position 0 on the file, which
is neither created nor truncated; fails with "not found" when no regular file
is at the path. -/
def spec_open_existing (path _mode : List Char) (fs : FileSystem) (errno : Int) :
    Ret (Option FILE) FileSystem :=
  if fs.isFile path then ⟨some ⟨path, 0⟩, fs, errno⟩ else ⟨none, fs, ENOENT⟩

/-- Modelled from the spec: `puflib_check_access` of the platform layer (not
among the sources), "accessibility check against a requested permission set".
The filesystem keeps no permissions: a path is accessible when a file or a
directory is there.  Returns 0 when accessible. -/
def spec_check_access (path : List Char) (_mode : Int) (fs : FileSystem) (errno : Int) :
    Ret Int FileSystem :=
  if fs.isFile path || fs.isDir path then ⟨0, fs, errno⟩ else ⟨-1, fs, ENOENT⟩

/-- Modelled from the spec: `puflib_delete_tree` of the platform layer (not
among the sources), "recursive directory deletion": removes the directory and
everything at or below its path; fails when no directory is there. -/
def spec_delete_tree (sep path : List Char) (fs : FileSystem) (errno : Int) :
    Ret Int FileSystem :=
  if fs.isDir path then
    ⟨0, { files := fs.files.filter (fun e => !under sep path e.1),
          dirs := fs.dirs.filter (fun d => !under sep path d) }, errno⟩
  else ⟨-1, fs, if fs.isFile path then ENOTDIR else ENOENT⟩

/-- Modelled from the spec: C `remove` on the filesystem: deletes a regular
file or an empty directory. -/
def spec_remove (sep path : List Char) (fs : FileSystem) (errno : Int) :
    Ret Int FileSystem :=
  if fs.isFile path then
    ⟨0, { fs with files := fs.files.filter (fun e => decide (e.1 ≠ path)) }, errno⟩
  else if fs.isDir path then
    if (fs.files.any (fun e => under sep path e.1 && decide (e.1 ≠ path)))
        || (fs.dirs.any (fun d => under sep path d && decide (d ≠ path))) then
      ⟨-1, fs, ENOTEMPTY⟩
    else ⟨0, { fs with dirs := fs.dirs.filter (fun d => decide (d ≠ path)) }, errno⟩
  else ⟨-1, fs, ENOENT⟩

/-- Modelled from the spec: the platform layer over `FileSystem`, for a store
root and a path separator; `free_errno` is what `free` does to errno. -/
def specPlatform (nvstore sep : List Char) (free_errno : Int → Int) :
    Platform FileSystem FILE where
  puflib_get_nv_store_path := nvstore
  puflib_get_path_sep := sep
  puflib_create_directory_tree := spec_create_directory_tree sep
  puflib_create_and_open := spec_create_and_open sep
  puflib_open_existing := spec_open_existing
  puflib_check_access := spec_check_access
  puflib_delete_tree := spec_delete_tree sep
  remove := spec_remove sep
  free := free_errno

/-- Modelled from the spec: C `fwrite` of `bytes` to a stream: the bytes
replace the file contents from the stream position on (the file grows as
needed) and the position advances. -/
def fwrite (bytes : List Nat) (f : FILE) (fs : FileSystem) : FILE × FileSystem :=
  match fs.content f.path with
  | none => (f, fs)
  | some old =>
    ({ f with pos := f.pos + bytes.length },
     fs.put f.path (old.take f.pos ++ List.replicate (f.pos - old.length) 0 ++ bytes
       ++ old.drop (f.pos + bytes.length)))

/-- Modelled from the spec: C `fclose`: writes reach the file as they are
made, so closing leaves the filesystem as it is. -/
def fclose (_f : FILE) (fs : FileSystem) : FileSystem := fs

/-- Modelled from the spec: reading a stream to the end of its file. -/
def fread_all (f : FILE) (fs : FileSystem) : List Nat :=
  ((fs.content f.path).getD []).drop f.pos

/-- A state to start from: errno 0, no handlers, nothing called or delivered. -/
def State.init (fs : FileSystem) (mallocs : List Bool) : State FileSystem where
  errno := 0
  fs := fs
  mallocs := mallocs
  garbage := fun _ => 'z'
  STATUS_CALLBACK := none
  QUERY_CALLBACK := none
  calls := []
  delivered := []


/-! ## Facts about C strings -/

theorem cstr_of_isCStr {s : List Char} (h : IsCStr s) : cstr s = s := by
  unfold cstr
  rw [List.takeWhile_eq_self_iff]
  intro c hc
  simpa using h c hc

theorem strlen_of_isCStr {s : List Char} (h : IsCStr s) : strlen s = s.length := by
  unfold strlen; rw [cstr_of_isCStr h]

theorem char_toNat_inj {a b : Char} (h : (a.toNat : Int) = (b.toNat : Int)) : a = b := by
  have h1 : a.toNat = b.toNat := by exact_mod_cast h
  apply Char.ext
  apply UInt32.ext
  exact h1

theorem toNat_eq_zero_iff_NUL (a : Char) : a.toNat = 0 ↔ a = NUL := by
  constructor
  · intro h
    apply Char.ext
    apply UInt32.ext
    exact h
  · intro h; subst h; rfl

/-- On C strings `strcmp` returns 0 exactly for equal strings. -/
theorem strcmp_eq_zero_iff : ∀ (a b : List Char), IsCStr a → IsCStr b →
    (strcmp a b = 0 ↔ a = b)
  | [], [], _, _ => by simp [strcmp]
  | [], b :: bs, _, hb => by
    have hb0 : b ≠ NUL := hb b (by simp)
    have : b.toNat ≠ 0 := fun h => hb0 ((toNat_eq_zero_iff_NUL b).1 h)
    simp [strcmp]; omega
  | a :: as, [], ha, _ => by
    have ha0 : a ≠ NUL := ha a (by simp)
    have : a.toNat ≠ 0 := fun h => ha0 ((toNat_eq_zero_iff_NUL a).1 h)
    simp [strcmp]; omega
  | a :: as, b :: bs, ha, hb => by
    have ha0 : a ≠ NUL := ha a (by simp)
    have has : IsCStr as := fun c hc => ha c (by simp [hc])
    have hbs : IsCStr bs := fun c hc => hb c (by simp [hc])
    by_cases hab : a = b
    · subst hab
      simp [strcmp, ha0, strcmp_eq_zero_iff as bs has hbs]
    · have : (a.toNat : Int) - (b.toNat : Int) ≠ 0 := by
        intro h
        exact hab (char_toNat_inj (by omega))
      simp [strcmp, hab, this]



/-! ## Module registry -/


/-- The scan of a NULL-terminated array is `List.find?` on the entries before
the terminator. -/
theorem puflib_get_module_eq_find (mods : List module_info)
    (junk : List (Option module_info)) (name : List Char)
    (hmods : ∀ m ∈ mods, IsCStr m.name) (hname : IsCStr name) :
    puflib_get_module (mods.map some ++ none :: junk) name
      = mods.find? (fun m => decide (m.name = name)) := by
  induction mods with
  | nil => simp [puflib_get_module]
  | cons m rest ih =>
    have hm : IsCStr m.name := hmods m (by simp)
    have hrest : ∀ x ∈ rest, IsCStr x.name := fun x hx => hmods x (by simp [hx])
    simp only [List.map_cons, List.cons_append, puflib_get_module, List.find?_cons]
    by_cases h : m.name = name
    · have h0 : strcmp m.name name = 0 := (strcmp_eq_zero_iff m.name name hm hname).2 h
      rw [if_pos h0]; simp [h]
    · have h0 : ¬ strcmp m.name name = 0 :=
        fun h0 => h ((strcmp_eq_zero_iff m.name name hm hname).1 h0)
      rw [if_neg h0]; simp only [h, decide_False]; exact ih hrest

/-- C1. On a NULL-terminated registry (the descriptors `mods`, a NULL cell,
then anything) `puflib_get_module name` returns `m` exactly when `m` is the
first descriptor in registry order whose name equals `name`, returns NULL
exactly when no descriptor has that name, and for every descriptor `M` of the
registry `puflib_get_module M.name` returns a descriptor named `M.name`, which
is `M` itself when the names of the registry are pairwise different. -/
theorem puflib_get_module_first_match (mods : List module_info)
    (junk : List (Option module_info)) (name : List Char)
    (hmods : ∀ m ∈ mods, IsCStr m.name) (hname : IsCStr name) :
    (∀ m, puflib_get_module (mods.map some ++ none :: junk) name = some m ↔
        ∃ pre post, mods = pre ++ m :: post ∧ m.name = name ∧
          ∀ p ∈ pre, p.name ≠ name)
    ∧ (puflib_get_module (mods.map some ++ none :: junk) name = none ↔
        ∀ m ∈ mods, m.name ≠ name)
    ∧ (∀ M ∈ mods, ∃ m,
        puflib_get_module (puflib_get_modules (mods.map some ++ none :: junk)) M.name
          = some m
        ∧ m.name = M.name
        ∧ ((mods.map module_info.name).Nodup → m = M)) := by
  refine ⟨?_, ?_, ?_⟩
  · intro m
    rw [puflib_get_module_eq_find mods junk name hmods hname,
      List.find?_eq_some]
    constructor
    · rintro ⟨hm, pre, post, hsplit, hpre⟩
      exact ⟨pre, post, hsplit, by simpa using hm, fun p hp => by simpa using hpre p hp⟩
    · rintro ⟨pre, post, hsplit, hm, hpre⟩
      exact ⟨by simpa using hm, pre, post, hsplit, fun p hp => by simpa using hpre p hp⟩
  · rw [puflib_get_module_eq_find mods junk name hmods hname, List.find?_eq_none]
    simp
  · intro M hM
    unfold puflib_get_modules
    rw [puflib_get_module_eq_find mods junk M.name hmods (hmods M hM)]
    cases hf : mods.find? (fun m => decide (m.name = M.name)) with
    | none =>
      rw [List.find?_eq_none] at hf
      exact absurd (hf M hM) (by simp)
    | some m =>
      refine ⟨m, rfl, by simpa using List.find?_some hf, ?_⟩
      intro hnodup
      have hmem : m ∈ mods := List.mem_of_find?_eq_some hf
      have hname : m.name = M.name := by simpa using List.find?_some hf
      exact List.inj_on_of_nodup_map hnodup hmem hM hname

/-- C1 at a registry of three modules, two of them sharing a name. -/
theorem puflib_get_module_first_match_witness :
    (∀ m ∈ [module_info.mk "ro".toList 1, module_info.mk "sram".toList 2,
        module_info.mk "ro".toList 3], IsCStr m.name)
    ∧ IsCStr "ro".toList
    ∧ puflib_get_module
        ([module_info.mk "ro".toList 1, module_info.mk "sram".toList 2,
          module_info.mk "ro".toList 3].map some ++ none :: [some (module_info.mk "x".toList 9)])
        "ro".toList = some (module_info.mk "ro".toList 1)
    ∧ (puflib_get_module
        ([module_info.mk "ro".toList 1, module_info.mk "sram".toList 2,
          module_info.mk "ro".toList 3].map some ++ none :: [some (module_info.mk "x".toList 9)])
        "ro".toList = none ↔
        ∀ m ∈ [module_info.mk "ro".toList 1, module_info.mk "sram".toList 2,
          module_info.mk "ro".toList 3], m.name ≠ "ro".toList) :=
  ⟨by decide, by decide, by decide,
   (puflib_get_module_first_match
      [module_info.mk "ro".toList 1, module_info.mk "sram".toList 2,
        module_info.mk "ro".toList 3]
      [some (module_info.mk "x".toList 9)] "ro".toList (by decide) (by decide)).2.1⟩


/-! ## The buffer of `get_nv_filename` -/

theorem isCStr_append {a b : List Char} (ha : IsCStr a) (hb : IsCStr b) :
    IsCStr (a ++ b) := by
  intro c hc
  rcases List.mem_append.1 hc with h | h
  · exact ha c h
  · exact hb c h

theorem isCStr_take {a : List Char} (ha : IsCStr a) (n : Nat) : IsCStr (a.take n) :=
  fun c hc => ha c (List.mem_of_mem_take hc)

/-- A string followed by a NUL cell reads back as the string. -/
theorem cstr_append_NUL {a : List Char} (ha : IsCStr a) (rest : List Char) :
    cstr (a ++ NUL :: rest) = a := by
  unfold cstr
  rw [List.takeWhile_append_of_pos (fun c hc => by simpa using ha c hc)]
  simp

/-- C `strncpy` of a string shorter than the bound into a block of exactly the
bound: the string, then NUL cells up to the end of the block. -/
theorem strncpy_fits {src : List Char} (hsrc : IsCStr src) (dest : List Char) (k : Nat)
    (hdest : dest.length = src.length + (k + 1)) :
    strncpy dest src (src.length + (k + 1)) = src ++ NUL :: List.replicate k NUL := by
  unfold strncpy
  rw [strlen_of_isCStr hsrc, cstr_of_isCStr hsrc]
  have h1 : src.take (src.length + (k + 1)) = src := List.take_of_length_le (by omega)
  have h2 : dest.drop (src.length + (k + 1)) = [] := List.drop_of_length_le (by omega)
  have h3 : src.length + (k + 1) - src.length = k + 1 := by omega
  rw [h1, h2, h3, List.replicate_succ]
  simp

/-- C `strncat` onto a terminated string: the copied characters go where the
terminator was, a NUL follows them, and the cells they displaced are gone from
the rest of the memory. -/
theorem strncat_onto {a src : List Char} (ha : IsCStr a) (hsrc : IsCStr src)
    (rest : List Char) (n : Nat) :
    strncat (a ++ NUL :: rest) src n
      = (a ++ src.take n) ++ NUL :: rest.drop (min n src.length) := by
  unfold strncat
  rw [strlen_of_isCStr hsrc, cstr_of_isCStr hsrc]
  have hlen : strlen (a ++ NUL :: rest) = a.length := by
    unfold strlen; rw [cstr_append_NUL ha]
  rw [hlen]
  have h1 : (a ++ NUL :: rest).take a.length = a := by simp
  have h2 : (a ++ NUL :: rest).drop (a.length + min n src.length + 1)
      = rest.drop (min n src.length) := by
    rw [show a.length + min n src.length + 1 = a.length + (min n src.length + 1) by omega,
      ← List.drop_drop]
    simp
  rw [h1, h2]
  simp

/-- The memory after each of the three string calls of `get_nv_filename`, for
C strings and a block of `buflen` cells. -/
theorem get_nv_filename_writes_eq {nvstore sep name : List Char} (hroot : IsCStr nvstore)
    (hsep : IsCStr sep) (hname : IsCStr name) (buf : List Char)
    (hbuf : buf.length = get_nv_filename_buflen nvstore name) :
    get_nv_filename_writes nvstore sep name buf =
      (nvstore ++ NUL :: List.replicate (name.length + 1) NUL,
       (nvstore ++ sep.take (nvstore.length + name.length + 2)) ++ NUL ::
         (List.replicate (name.length + 1) NUL).drop
           (min (nvstore.length + name.length + 2) sep.length),
       (nvstore ++ sep.take (nvstore.length + name.length + 2) ++ name) ++ NUL ::
         ((List.replicate (name.length + 1) NUL).drop
           (min (nvstore.length + name.length + 2) sep.length)).drop name.length) := by
  have hlen : get_nv_filename_buflen nvstore name = nvstore.length + name.length + 2 := by
    unfold get_nv_filename_buflen
    rw [strlen_of_isCStr hroot, strlen_of_isCStr hname]
  unfold get_nv_filename_writes
  simp only [hlen]
  have e1 : strncpy buf nvstore (nvstore.length + name.length + 2)
      = nvstore ++ NUL :: List.replicate (name.length + 1) NUL := by
    have := strncpy_fits hroot buf (name.length + 1) (by rw [hbuf, hlen]; omega)
    rw [show nvstore.length + name.length + 2 = nvstore.length + (name.length + 1 + 1) by omega]
    exact this
  rw [e1, strncat_onto hroot hsep,
    strncat_onto (isCStr_append hroot (isCStr_take hsep _)) hname]
  have h3 : name.take (nvstore.length + name.length + 2) = name :=
    List.take_of_length_le (by omega)
  have h4 : min (nvstore.length + name.length + 2) name.length = name.length := by omega
  rw [h3, h4]


theorem get_nv_filename_buflen_eq {nvstore name : List Char} (hroot : IsCStr nvstore)
    (hname : IsCStr name) :
    get_nv_filename_buflen nvstore name = nvstore.length + name.length + 2 := by
  unfold get_nv_filename_buflen
  rw [strlen_of_isCStr hroot, strlen_of_isCStr hname]

/-- C10. In `get_nv_filename`, for every store root, module name and separator
(C strings) and every block of `buflen` cells returned by `malloc`: when the
separator has length exactly 1, `buflen` is the length of
`root ++ separator ++ name` plus one for the terminator, after each of
`strncpy`, the first `strncat` and the second `strncat` the memory is still
exactly `buflen` cells long (nothing is written past the block), and the block
holds `root`, then `root ++ separator`, then `root ++ separator ++ name` (no
truncation); when the separator is longer than 1, the string left in memory
plus its terminator is longer than `buflen`. -/
theorem get_nv_filename_buffer_exact (nvstore sep name buf : List Char)
    (hroot : IsCStr nvstore) (hsep : IsCStr sep) (hname : IsCStr name)
    (hbuf : buf.length = get_nv_filename_buflen nvstore name) :
    (sep.length = 1 →
      get_nv_filename_buflen nvstore name = (nvstore ++ sep ++ name).length + 1
      ∧ (get_nv_filename_writes nvstore sep name buf).1.length
          = get_nv_filename_buflen nvstore name
      ∧ (get_nv_filename_writes nvstore sep name buf).2.1.length
          = get_nv_filename_buflen nvstore name
      ∧ (get_nv_filename_writes nvstore sep name buf).2.2.length
          = get_nv_filename_buflen nvstore name
      ∧ cstr (get_nv_filename_writes nvstore sep name buf).1 = nvstore
      ∧ cstr (get_nv_filename_writes nvstore sep name buf).2.1 = nvstore ++ sep
      ∧ cstr (get_nv_filename_writes nvstore sep name buf).2.2 = nvstore ++ sep ++ name)
    ∧ (1 < sep.length →
      get_nv_filename_buflen nvstore name
        < strlen (get_nv_filename_writes nvstore sep name buf).2.2 + 1) := by
  rw [get_nv_filename_writes_eq hroot hsep hname buf hbuf,
    get_nv_filename_buflen_eq hroot hname]
  have htake : IsCStr (sep.take (nvstore.length + name.length + 2)) := isCStr_take hsep _
  constructor
  · intro h1
    have ht : sep.take (nvstore.length + name.length + 2) = sep :=
      List.take_of_length_le (by omega)
    have hm : min (nvstore.length + name.length + 2) sep.length = 1 := by omega
    simp only [ht, hm]
    refine ⟨?_, ?_, ?_, ?_, ?_, ?_, ?_⟩
    · simp [h1]; omega
    · simp; omega
    · simp [h1]; omega
    · simp [h1]; omega
    · exact cstr_append_NUL hroot _
    · exact cstr_append_NUL (isCStr_append hroot hsep) _
    · exact cstr_append_NUL (isCStr_append (isCStr_append hroot hsep) hname) _
  · intro h2
    unfold strlen
    simp only []
    rw [cstr_append_NUL (isCStr_append (isCStr_append hroot htake) hname)]
    simp
    omega

/-- C10 at root "/var/puf", separators "/" and "::", module "ro" and a block
of 12 cells. -/
theorem get_nv_filename_buffer_exact_witness :
    (IsCStr "/var/puf".toList ∧ IsCStr "ro".toList
      ∧ (List.replicate 12 'z').length = get_nv_filename_buflen "/var/puf".toList "ro".toList)
    ∧ cstr (get_nv_filename_writes "/var/puf".toList "/".toList "ro".toList
        (List.replicate 12 'z')).2.2 = "/var/puf/ro".toList
    ∧ get_nv_filename_buflen "/var/puf".toList "ro".toList
        < strlen (get_nv_filename_writes "/var/puf".toList "::".toList "ro".toList
            (List.replicate 12 'z')).2.2 + 1 :=
  ⟨⟨by decide, by decide, by decide⟩,
   ((get_nv_filename_buffer_exact "/var/puf".toList "/".toList "ro".toList
      (List.replicate 12 'z') (by decide) (by decide) (by decide) (by decide)).1
      (by decide)).2.2.2.2.2.2,
   (get_nv_filename_buffer_exact "/var/puf".toList "::".toList "ro".toList
      (List.replicate 12 'z') (by decide) (by decide) (by decide) (by decide)).2
      (by decide)⟩

/-! ## `malloc` and `get_nv_filename` on the state -/

/-- The state after an allocation request that fails. -/
theorem malloc_of_fails {FS : Type} (s : State FS) (n : Nat) (h : s.malloc_fails = true) :
    malloc s n = (none, { s with mallocs := s.mallocs.tail, errno := ENOMEM }) := by
  unfold malloc; rw [if_pos h]

/-- The state after an allocation request that succeeds. -/
theorem malloc_of_succeeds {FS : Type} (s : State FS) (n : Nat)
    (h : s.malloc_fails = false) :
    malloc s n = (some ((List.range n).map s.garbage), { s with mallocs := s.mallocs.tail }) := by
  unfold malloc; rw [if_neg (by simp [h])]

/-- When allocation fails `get_nv_filename` returns NULL and leaves ENOMEM in
errno, whatever the platform. -/
theorem get_nv_filename_of_fails {FS File : Type} (P : Platform FS File) (M : module_info)
    (s : State FS) (h : s.malloc_fails = true) :
    get_nv_filename P M s
      = .ok (none, { s with mallocs := s.mallocs.tail, errno := ENOMEM }) := by
  unfold get_nv_filename
  simp only [malloc_of_fails s _ h]

/-- When allocation succeeds and the separator has at most one character,
`get_nv_filename` returns `root ++ separator ++ name`. -/
theorem get_nv_filename_of_succeeds {FS File : Type} (P : Platform FS File)
    (M : module_info) (s : State FS) (h : s.malloc_fails = false)
    (hroot : IsCStr P.puflib_get_nv_store_path) (hsep : IsCStr P.puflib_get_path_sep)
    (hname : IsCStr M.name) (hlen : P.puflib_get_path_sep.length ≤ 1) :
    get_nv_filename P M s
      = .ok (some (P.puflib_get_nv_store_path ++ P.puflib_get_path_sep ++ M.name),
          { s with mallocs := s.mallocs.tail }) := by
  unfold get_nv_filename
  simp only [malloc_of_succeeds s _ h]
  rw [get_nv_filename_writes_eq hroot hsep hname _ (by simp),
    get_nv_filename_buflen_eq hroot hname]
  have ht : P.puflib_get_path_sep.take (P.puflib_get_nv_store_path.length + M.name.length + 2)
      = P.puflib_get_path_sep := List.take_of_length_le (by omega)
  have hm : min (P.puflib_get_nv_store_path.length + M.name.length + 2)
      P.puflib_get_path_sep.length = P.puflib_get_path_sep.length := by omega
  simp only [ht, hm]
  rw [if_neg, cstr_append_NUL (isCStr_append (isCStr_append hroot hsep) hname)]
  simp
  omega

/-- When allocation succeeds and the separator has more than one character,
`get_nv_filename` writes past its block. -/
theorem get_nv_filename_of_long_sep {FS File : Type} (P : Platform FS File)
    (M : module_info) (s : State FS) (h : s.malloc_fails = false)
    (hroot : IsCStr P.puflib_get_nv_store_path) (hsep : IsCStr P.puflib_get_path_sep)
    (hname : IsCStr M.name) (hlen : 1 < P.puflib_get_path_sep.length) :
    get_nv_filename P M s = .undefined := by
  unfold get_nv_filename
  simp only [malloc_of_succeeds s _ h]
  rw [get_nv_filename_writes_eq hroot hsep hname _ (by simp),
    get_nv_filename_buflen_eq hroot hname]
  rw [if_pos]
  right; right
  simp
  omega


/-! ## Query channel -/

/-- C4. With no query handler registered, for every module, key, prompt,
buffer and capacity `puflib_query` returns true, hands the buffer back as it
was, and leaves a state that differs from the one before only in errno, which
is 0 whatever it was. -/
theorem puflib_query_no_handler {FS : Type} (M : module_info)
    (key prompt buffer : List Char) (buflen : Nat) (s : State FS)
    (hnone : s.QUERY_CALLBACK = none) :
    (puflib_query M key prompt buffer buflen s).1 = true
    ∧ (puflib_query M key prompt buffer buflen s).2.1 = buffer
    ∧ (puflib_query M key prompt buffer buflen s).2.2.errno = 0
    ∧ (puflib_query M key prompt buffer buflen s).2.2 = { s with errno := 0 } := by
  unfold puflib_query
  rw [hnone]
  exact ⟨rfl, rfl, rfl, rfl⟩

/-- C4 at a state whose errno is ENOENT and a buffer holding "old". -/
theorem puflib_query_no_handler_witness :
    ({ State.init ⟨[], []⟩ [] with errno := ENOENT }).QUERY_CALLBACK = none
    ∧ (puflib_query ⟨"ro".toList, 0⟩ "k".toList "p".toList "old".toList 3
        { State.init ⟨[], []⟩ [] with errno := ENOENT }).1 = true
    ∧ (puflib_query ⟨"ro".toList, 0⟩ "k".toList "p".toList "old".toList 3
        { State.init ⟨[], []⟩ [] with errno := ENOENT }).2.1 = "old".toList
    ∧ (puflib_query ⟨"ro".toList, 0⟩ "k".toList "p".toList "old".toList 3
        { State.init ⟨[], []⟩ [] with errno := ENOENT }).2.2.errno = 0 :=
  ⟨rfl,
   (puflib_query_no_handler ⟨"ro".toList, 0⟩ "k".toList "p".toList "old".toList 3
      { State.init ⟨[], []⟩ [] with errno := ENOENT } rfl).1,
   (puflib_query_no_handler ⟨"ro".toList, 0⟩ "k".toList "p".toList "old".toList 3
      { State.init ⟨[], []⟩ [] with errno := ENOENT } rfl).2.1,
   (puflib_query_no_handler ⟨"ro".toList, 0⟩ "k".toList "p".toList "old".toList 3
      { State.init ⟨[], []⟩ [] with errno := ENOENT } rfl).2.2.1⟩

/-! ## Reporting channel -/

theorem isCStr_level_as_string (level : Int) : IsCStr (level_as_string level) := by
  unfold level_as_string
  split
  · decide
  · split <;> decide

/-- The template of `puflib_report` on three C strings. -/
theorem render_report_format {t n x : List Char} (ht : IsCStr t) (hn : IsCStr n)
    (hx : IsCStr x) :
    render false (cstr "%s (%s): %s".toList) [t, n, x]
      = some (t ++ " (".toList ++ n ++ "): ".toList ++ x) := by
  have hf : cstr "%s (%s): %s".toList = "%s (%s): %s".toList := by decide
  rw [hf]
  simp [render, cstr_of_isCStr ht, cstr_of_isCStr hn, cstr_of_isCStr hx]

/-- What `puflib_vasprintf` returns, by cases on the rendering and on the
allocation. -/
theorem puflib_vasprintf_eq {FS : Type} (s : State FS) (fmt : List Char)
    (ap : List (List Char)) :
    puflib_vasprintf s fmt ap =
      match render false (cstr fmt) ap with
      | none => (-1, none, s)
      | some out =>
        if s.malloc_fails then
          (-1, none, { s with mallocs := s.mallocs.tail, errno := ENOMEM })
        else ((out.length : Int), some out, { s with mallocs := s.mallocs.tail }) := by
  unfold puflib_vasprintf malloc
  cases render false (cstr fmt) ap with
  | none => rfl
  | some out =>
    by_cases h : s.malloc_fails = true
    · simp [h]
    · simp [h]

/-- Rendering leaves the status slot and the delivered messages as they were,
and returns a string exactly when its return value is not negative. -/
theorem puflib_vasprintf_frame {FS : Type} (s : State FS) (fmt : List Char)
    (ap : List (List Char)) :
    (puflib_vasprintf s fmt ap).2.2.STATUS_CALLBACK = s.STATUS_CALLBACK
    ∧ (puflib_vasprintf s fmt ap).2.2.delivered = s.delivered
    ∧ ((puflib_vasprintf s fmt ap).1 < 0 → (puflib_vasprintf s fmt ap).2.1 = none)
    ∧ (0 ≤ (puflib_vasprintf s fmt ap).1 →
        ∃ out, (puflib_vasprintf s fmt ap).2.1 = some out) := by
  rw [puflib_vasprintf_eq]
  cases render false (cstr fmt) ap with
  | none => simp
  | some out =>
    by_cases h : s.malloc_fails = true
    · simp [h]
    · simp [h]

theorem free_if_frame {FS File : Type} (P : Platform FS File)
    (formatted : Option (List Char)) (s : State FS) :
    (free_if P formatted s).STATUS_CALLBACK = s.STATUS_CALLBACK
    ∧ (free_if P formatted s).delivered = s.delivered := by
  cases formatted <;> exact ⟨rfl, rfl⟩

/-- With a handler in the slot, `puflib_report` completes and delivers one
message: the rendered string, or the fixed string when rendering failed. -/
theorem puflib_report_delivers {FS File : Type} (P : Platform FS File) (M : module_info)
    (level : Int) (message : List Char) (s : State FS) (h : Nat)
    (hcb : s.STATUS_CALLBACK = some h) :
    ∃ s' msg, puflib_report P M level message s = .ok s'
      ∧ s'.delivered = s.delivered ++ [(h, msg)]
      ∧ s'.STATUS_CALLBACK = some h
      ∧ (0 ≤ (puflib_asprintf s "%s (%s): %s".toList
              [level_as_string level, M.name, message]).1 →
          (puflib_asprintf s "%s (%s): %s".toList
              [level_as_string level, M.name, message]).2.1 = some msg)
      ∧ ((puflib_asprintf s "%s (%s): %s".toList
              [level_as_string level, M.name, message]).1 < 0 →
          msg = "error (puflib): internal error formatting message".toList) := by
  unfold puflib_report
  have hfr := puflib_vasprintf_frame s "%s (%s): %s".toList
    [level_as_string level, M.name, message]
  unfold puflib_asprintf
  generalize puflib_vasprintf s "%s (%s): %s".toList
    [level_as_string level, M.name, message] = r at hfr ⊢
  obtain ⟨rc, formatted, s1⟩ := r
  obtain ⟨h1, h2, h3, h4⟩ := hfr
  simp only [] at h1 h2 h3 h4 ⊢
  by_cases hrc : rc < 0
  · rw [if_pos hrc]
    unfold call_STATUS_CALLBACK
    rw [(free_if_frame P formatted s1).1, h1, hcb]
    refine ⟨_, internal_error_message, rfl, ?_, ?_, fun h0 => absurd hrc (by omega),
      fun _ => rfl⟩
    · simp [(free_if_frame P formatted s1).2, h2]
    · simp [(free_if_frame P formatted s1).1, h1, hcb]
  · rw [if_neg hrc]
    obtain ⟨out, hout⟩ := h4 (by omega)
    unfold call_STATUS_CALLBACK
    rw [h1, hcb, hout]
    refine ⟨_, out, rfl, ?_, ?_, fun _ => rfl, fun h0 => absurd h0 hrc⟩
    · simp [(free_if_frame P _ _).2, h2]
    · simp [(free_if_frame P _ _).1, h1, hcb]


/-- C2. With a status handler `h` registered, for every module, message (C
strings) and level value, when the rendering in `puflib_report` succeeds the
call completes and passes to `h` exactly one string, which is
"info (<name>): <x>" for STATUS_INFO, "warn (<name>): <x>" for STATUS_WARN,
"error (<name>): <x>" for STATUS_ERROR and "error (<name>): <x>" for every
level value outside the enumeration. -/
theorem puflib_report_exact_string {FS File : Type} (P : Platform FS File)
    (M : module_info) (level : Int) (x : List Char) (s : State FS) (h : Nat)
    (hcb : s.STATUS_CALLBACK = some h) (hname : IsCStr M.name) (hx : IsCStr x)
    (hrender : 0 ≤ (puflib_asprintf s "%s (%s): %s".toList
        [level_as_string level, M.name, x]).1) :
    ∃ s', puflib_report P M level x s = .ok s'
      ∧ (level = STATUS_INFO → s'.delivered = s.delivered ++
          [(h, "info".toList ++ " (".toList ++ M.name ++ "): ".toList ++ x)])
      ∧ (level = STATUS_WARN → s'.delivered = s.delivered ++
          [(h, "warn".toList ++ " (".toList ++ M.name ++ "): ".toList ++ x)])
      ∧ (level = STATUS_ERROR → s'.delivered = s.delivered ++
          [(h, "error".toList ++ " (".toList ++ M.name ++ "): ".toList ++ x)])
      ∧ (level ≠ STATUS_INFO → level ≠ STATUS_WARN → level ≠ STATUS_ERROR →
          s'.delivered = s.delivered ++
          [(h, "error".toList ++ " (".toList ++ M.name ++ "): ".toList ++ x)]) := by
  obtain ⟨s', msg, hok, hdel, _, hsome, _⟩ := puflib_report_delivers P M level x s h hcb
  have hmsg := hsome hrender
  have hout : msg = level_as_string level ++ " (".toList ++ M.name ++ "): ".toList ++ x := by
    unfold puflib_asprintf at hmsg hrender
    rw [puflib_vasprintf_eq,
      render_report_format (isCStr_level_as_string level) hname hx] at hmsg hrender
    by_cases hf : s.malloc_fails = true
    · simp [hf] at hrender
    · simp only [hf, Bool.false_eq_true, if_false, Option.some.injEq] at hmsg
      exact hmsg.symm
  refine ⟨s', hok, ?_, ?_, ?_, ?_⟩
  · intro hl; rw [hdel, hout]; subst hl; rfl
  · intro hl; rw [hdel, hout]; subst hl; rfl
  · intro hl; rw [hdel, hout]; subst hl; rfl
  · intro h1 h2 _
    rw [hdel, hout]
    unfold level_as_string
    rw [if_neg h1, if_neg h2]

/-- C2 at module "ro", level STATUS_WARN and message "x", handler 7. -/
theorem puflib_report_exact_string_witness :
    ∃ s', puflib_report (specPlatform "/var/puf".toList "/".toList id) ⟨"ro".toList, 0⟩
        STATUS_WARN "x".toList (puflib_set_status_handler (some 7) (State.init ⟨[], []⟩ []))
        = .ok s'
      ∧ s'.delivered = [(7, "warn (ro): x".toList)] := by
  obtain ⟨s', hok, _, hwarn, _, _⟩ :=
    puflib_report_exact_string (specPlatform "/var/puf".toList "/".toList id)
      ⟨"ro".toList, 0⟩ STATUS_WARN "x".toList
      (puflib_set_status_handler (some 7) (State.init ⟨[], []⟩ [])) 7 rfl
      (by decide) (by decide) (by decide)
  exact ⟨s', hok, hwarn rfl⟩

/-- C9. With a status handler `h` registered, every call of `puflib_report`
and every call of `puflib_report_fmt` completes and calls `h` exactly once:
with the string `puflib_asprintf` rendered when every rendering step returned a
non-negative value, and with the literal string
"error (puflib): internal error formatting message" when a rendering step (the template rendering of `puflib_report_fmt`,
or the rendering inside `puflib_report`) returned a negative value. -/
theorem report_delivers_exactly_once {FS File : Type} (P : Platform FS File)
    (M : module_info) (level : Int) (message fmt : List Char) (ap : List (List Char))
    (s : State FS) (h : Nat) (hcb : s.STATUS_CALLBACK = some h) :
    (∃ s' msg, puflib_report P M level message s = .ok s'
      ∧ s'.delivered = s.delivered ++ [(h, msg)]
      ∧ (0 ≤ (puflib_asprintf s "%s (%s): %s".toList
              [level_as_string level, M.name, message]).1 →
          (puflib_asprintf s "%s (%s): %s".toList
              [level_as_string level, M.name, message]).2.1 = some msg)
      ∧ ((puflib_asprintf s "%s (%s): %s".toList
              [level_as_string level, M.name, message]).1 < 0 →
          msg = "error (puflib): internal error formatting message".toList))
    ∧ (∃ s' msg, puflib_report_fmt P M level fmt ap s = .ok s'
      ∧ s'.delivered = s.delivered ++ [(h, msg)]
      ∧ (0 ≤ (puflib_vasprintf s fmt ap).1 →
          0 ≤ (puflib_asprintf (puflib_vasprintf s fmt ap).2.2 "%s (%s): %s".toList
              [level_as_string level, M.name, (puflib_vasprintf s fmt ap).2.1.getD []]).1 →
          (puflib_asprintf (puflib_vasprintf s fmt ap).2.2 "%s (%s): %s".toList
              [level_as_string level, M.name, (puflib_vasprintf s fmt ap).2.1.getD []]).2.1
            = some msg)
      ∧ ((puflib_vasprintf s fmt ap).1 < 0 →
          msg = "error (puflib): internal error formatting message".toList)
      ∧ (0 ≤ (puflib_vasprintf s fmt ap).1 →
          (puflib_asprintf (puflib_vasprintf s fmt ap).2.2 "%s (%s): %s".toList
              [level_as_string level, M.name, (puflib_vasprintf s fmt ap).2.1.getD []]).1 < 0 →
          msg = "error (puflib): internal error formatting message".toList)) := by
  constructor
  · obtain ⟨s', msg, hok, hdel, _, h1, h2⟩ := puflib_report_delivers P M level message s h hcb
    exact ⟨s', msg, hok, hdel, h1, h2⟩
  · unfold puflib_report_fmt
    have hfr := puflib_vasprintf_frame s fmt ap
    generalize puflib_vasprintf s fmt ap = r at hfr ⊢
    obtain ⟨rc, formatted, s1⟩ := r
    obtain ⟨h1, h2, _, _⟩ := hfr
    simp only [] at h1 h2 ⊢
    by_cases hrc : rc < 0
    · rw [if_pos hrc]
      unfold call_STATUS_CALLBACK
      rw [(free_if_frame P formatted s1).1, h1, hcb]
      refine ⟨_, internal_error_message, rfl, ?_, fun h0 => absurd hrc (by omega),
        fun _ => rfl, fun _ _ => rfl⟩
      simp [(free_if_frame P formatted s1).2, h2]
    · rw [if_neg hrc]
      obtain ⟨s2, msg, hok, hdel, _, h3, h4⟩ :=
        puflib_report_delivers P M level (formatted.getD []) s1 h (by rw [h1, hcb])
      rw [hok]
      refine ⟨_, msg, rfl, ?_, fun _ h0 => h3 h0, fun h0 => absurd h0 hrc, fun _ h0 => h4 h0⟩
      rw [(free_if_frame P formatted s2).2, hdel, h2]

/-- C9 at a state where the template renders and the allocation inside
`puflib_report` fails: the fixed string is delivered, once. -/
theorem report_delivers_exactly_once_witness :
    ∃ s', puflib_report_fmt (specPlatform "/var/puf".toList "/".toList id) ⟨"ro".toList, 0⟩
        STATUS_INFO "try %s".toList ["again".toList]
        (puflib_set_status_handler (some 7) (State.init ⟨[], []⟩ [true, false])) = .ok s'
      ∧ s'.delivered = [(7, "error (puflib): internal error formatting message".toList)] := by
  obtain ⟨s', msg, hok, hdel, _, _, hfail⟩ :=
    (report_delivers_exactly_once (specPlatform "/var/puf".toList "/".toList id)
      ⟨"ro".toList, 0⟩ STATUS_INFO [] "try %s".toList ["again".toList]
      (puflib_set_status_handler (some 7) (State.init ⟨[], []⟩ [true, false])) 7 rfl).2
  refine ⟨s', hok, ?_⟩
  rw [hdel, hfail (by decide) (by decide)]
  rfl


/-! ## Store paths -/

/-- Function `get_nv_filename` on C strings, whatever the platform, by cases on the
allocation and on the length of the separator. -/
theorem get_nv_filename_eq {FS File : Type} (P : Platform FS File) (M : module_info)
    (s : State FS) (hroot : IsCStr P.puflib_get_nv_store_path)
    (hsep : IsCStr P.puflib_get_path_sep) (hname : IsCStr M.name) :
    get_nv_filename P M s =
      if s.malloc_fails = true then
        .ok (none, { s with mallocs := s.mallocs.tail, errno := ENOMEM })
      else if P.puflib_get_path_sep.length ≤ 1 then
        .ok (some (StorePath P.puflib_get_nv_store_path P.puflib_get_path_sep M.name),
          { s with mallocs := s.mallocs.tail })
      else .undefined := by
  by_cases hf : s.malloc_fails = true
  · rw [if_pos hf, get_nv_filename_of_fails P M s hf]
  · have hf' : s.malloc_fails = false := by simpa using hf
    rw [if_neg hf]
    by_cases hl : P.puflib_get_path_sep.length ≤ 1
    · rw [if_pos hl, get_nv_filename_of_succeeds P M s hf' hroot hsep hname hl]; rfl
    · rw [if_neg hl, get_nv_filename_of_long_sep P M s hf' hroot hsep hname (by omega)]

/-- C3 fails for a separator that does not fit: with root "a", separator
"-----" and module name "b", `get_nv_filename` allocates 4 cells, writes past
them, and the string its three calls build is "a----b", not
"a" ++ "-----" ++ "b". -/
theorem get_nv_filename_long_separator_counterexample :
    get_nv_filename (specPlatform "a".toList "-----".toList id) ⟨"b".toList, 0⟩
        (State.init ⟨[], []⟩ []) = .undefined
    ∧ get_nv_filename_buflen "a".toList "b".toList = 4
    ∧ cstr (get_nv_filename_writes "a".toList "-----".toList "b".toList
        (List.replicate 4 'z')).2.2 = "a----b".toList
    ∧ "a----b".toList ≠ StorePath "a".toList "-----".toList "b".toList :=
  ⟨rfl, by decide, by decide, by decide⟩

/-- C3, amended. For a store root and a path separator of at most one
character (C strings): whenever allocation succeeds, the path `get_nv_filename`
computes for a module is `root ++ separator ++ module.name`, within its block;
the paths it computes for two modules with different names are different; and
in a registry with pairwise different names, two different modules get
different paths. -/
theorem get_nv_filename_store_path {FS File : Type} (P : Platform FS File)
    (hroot : IsCStr P.puflib_get_nv_store_path) (hsep : IsCStr P.puflib_get_path_sep)
    (hlen : P.puflib_get_path_sep.length ≤ 1) :
    (∀ (M : module_info) (s : State FS), IsCStr M.name → s.malloc_fails = false →
      get_nv_filename P M s
        = .ok (some (StorePath P.puflib_get_nv_store_path P.puflib_get_path_sep M.name),
            { s with mallocs := s.mallocs.tail }))
    ∧ (∀ (M1 M2 : module_info) (s1 s2 t1 t2 : State FS) (p1 p2 : List Char),
      IsCStr M1.name → IsCStr M2.name → M1.name ≠ M2.name →
      get_nv_filename P M1 s1 = .ok (some p1, t1) →
      get_nv_filename P M2 s2 = .ok (some p2, t2) → p1 ≠ p2)
    ∧ (∀ (mods : List module_info), (∀ m ∈ mods, IsCStr m.name) →
      (mods.map module_info.name).Nodup →
      ∀ M1 ∈ mods, ∀ M2 ∈ mods, M1 ≠ M2 →
      ∀ (s1 s2 t1 t2 : State FS) (p1 p2 : List Char),
      get_nv_filename P M1 s1 = .ok (some p1, t1) →
      get_nv_filename P M2 s2 = .ok (some p2, t2) → p1 ≠ p2) := by
  have key : ∀ (M : module_info) (s t : State FS) (p : List Char), IsCStr M.name →
      get_nv_filename P M s = .ok (some p, t) →
      p = P.puflib_get_nv_store_path ++ P.puflib_get_path_sep ++ M.name := by
    intro M s t p hname hget
    rw [get_nv_filename_eq P M s hroot hsep hname] at hget
    by_cases hf : s.malloc_fails = true
    · rw [if_pos hf] at hget
      cases hget
    · rw [if_neg hf, if_pos hlen] at hget
      cases hget
      rfl
  have inj : ∀ (M1 M2 : module_info) (s1 s2 t1 t2 : State FS) (p1 p2 : List Char),
      IsCStr M1.name → IsCStr M2.name → M1.name ≠ M2.name →
      get_nv_filename P M1 s1 = .ok (some p1, t1) →
      get_nv_filename P M2 s2 = .ok (some p2, t2) → p1 ≠ p2 := by
    intro M1 M2 s1 s2 t1 t2 p1 p2 h1 h2 hne hg1 hg2 heq
    rw [key M1 s1 t1 p1 h1 hg1, key M2 s2 t2 p2 h2 hg2] at heq
    exact hne (List.append_cancel_left heq)
  refine ⟨?_, inj, ?_⟩
  · intro M s hname hf
    rw [get_nv_filename_eq P M s hroot hsep hname, if_neg (by simp [hf]), if_pos hlen]
  · intro mods hmods hnodup M1 hM1 M2 hM2 hne s1 s2 t1 t2 p1 p2 hg1 hg2
    have hnames : M1.name ≠ M2.name :=
      fun h => hne (List.inj_on_of_nodup_map hnodup hM1 hM2 h)
    exact inj M1 M2 s1 s2 t1 t2 p1 p2 (hmods M1 hM1) (hmods M2 hM2) hnames hg1 hg2

/-- C3, amended, at root "/var/puf", separator "/" and module "ro". -/
theorem get_nv_filename_store_path_witness :
    (IsCStr (specPlatform "/var/puf".toList "/".toList id).puflib_get_nv_store_path
      ∧ IsCStr (specPlatform "/var/puf".toList "/".toList id).puflib_get_path_sep
      ∧ (specPlatform "/var/puf".toList "/".toList id).puflib_get_path_sep.length ≤ 1)
    ∧ get_nv_filename (specPlatform "/var/puf".toList "/".toList id) ⟨"ro".toList, 0⟩
        (State.init ⟨[], []⟩ [])
      = .ok (some "/var/puf/ro".toList,
          { State.init ⟨[], []⟩ [] with mallocs := [] }) :=
  ⟨⟨by decide, by decide, by decide⟩,
   (get_nv_filename_store_path (specPlatform "/var/puf".toList "/".toList id)
      (by decide) (by decide) (by decide)).1 ⟨"ro".toList, 0⟩ (State.init ⟨[], []⟩ [])
      (by decide) rfl⟩


/-! ## Deleting and creating the file store -/

/-- C5 fails when the path cannot be computed: with the store file present
and the allocation failing, `puflib_delete_nv_store` returns true, which is
the failure indicator, not the success indicator; it has called no platform
primitive, the file is still there and errno is ENOMEM. -/
theorem puflib_delete_nv_store_oom_counterexample :
    ∃ s', puflib_delete_nv_store (specPlatform "/var/puf".toList "/".toList id)
        ⟨"ro".toList, 0⟩
        (State.init ⟨[("/var/puf/ro".toList, [1, 2])], ["/var/puf".toList]⟩ [false])
        = .ok (true, s')
      ∧ s'.calls = []
      ∧ s'.fs = ⟨[("/var/puf/ro".toList, [1, 2])], ["/var/puf".toList]⟩
      ∧ s'.errno = ENOMEM :=
  ⟨_, rfl, rfl, rfl, rfl⟩

/-- C5, amended. For every module (C strings throughout)
`puflib_delete_nv_store` returns true (the failure indicator) exactly when the
path could not be computed or `remove` on StorePath returned non-zero.  When
the allocation fails it returns true, calls no platform primitive, leaves the
filesystem as it was and errno is ENOMEM.  When the allocation succeeds, on a
platform whose separator has at most one character, it calls `remove` on
StorePath, once, returns true exactly when `remove` returned non-zero, and if
`remove` failed errno is the value `remove` set.  (With a longer separator
`get_nv_filename` overruns its block and the call has no defined result.) -/
theorem puflib_delete_nv_store_result {FS File : Type} (P : Platform FS File)
    (M : module_info) (s : State FS) (hroot : IsCStr P.puflib_get_nv_store_path)
    (hsep : IsCStr P.puflib_get_path_sep) (hname : IsCStr M.name) :
    (s.malloc_fails = true →
      ∃ s', puflib_delete_nv_store P M s = .ok (true, s')
        ∧ s'.calls = s.calls ∧ s'.fs = s.fs ∧ s'.errno = ENOMEM)
    ∧ (s.malloc_fails = false → P.puflib_get_path_sep.length ≤ 1 →
      ∃ s', puflib_delete_nv_store P M s
          = .ok (decide ((P.remove
              (StorePath P.puflib_get_nv_store_path P.puflib_get_path_sep M.name)
              s.fs s.errno).val ≠ 0), s')
        ∧ s'.calls = s.calls ++
            [.remove (StorePath P.puflib_get_nv_store_path P.puflib_get_path_sep M.name)]
        ∧ s'.fs = (P.remove
              (StorePath P.puflib_get_nv_store_path P.puflib_get_path_sep M.name)
              s.fs s.errno).fs
        ∧ ((P.remove (StorePath P.puflib_get_nv_store_path P.puflib_get_path_sep M.name)
              s.fs s.errno).val ≠ 0 →
            s'.errno = (P.remove
              (StorePath P.puflib_get_nv_store_path P.puflib_get_path_sep M.name)
              s.fs s.errno).errno))
    ∧ (s.malloc_fails = false → 1 < P.puflib_get_path_sep.length →
      puflib_delete_nv_store P M s = .undefined) := by
  refine ⟨?_, ?_, ?_⟩
  · intro hf
    unfold puflib_delete_nv_store
    rw [get_nv_filename_of_fails P M s hf]
    exact ⟨_, rfl, rfl, rfl, rfl⟩
  · intro hf hlen
    unfold puflib_delete_nv_store
    rw [get_nv_filename_of_succeeds P M s hf hroot hsep hname hlen]
    simp only [Outcome.bind, State.run, StorePath]
    by_cases hrc : (P.remove (P.puflib_get_nv_store_path ++ P.puflib_get_path_sep ++ M.name)
        s.fs s.errno).val = 0
    · simp only [hrc, ne_eq, not_true_eq_false, if_false, decide_False]
      exact ⟨_, rfl, rfl, rfl, fun h => h.elim⟩
    · simp only [hrc, ne_eq, not_false_eq_true, if_true, decide_True]
      exact ⟨_, rfl, rfl, rfl, fun _ => rfl⟩
  · intro hf hlen
    unfold puflib_delete_nv_store
    rw [get_nv_filename_of_long_sep P M s hf hroot hsep hname hlen]
    rfl

/-- C5, amended, at a store whose file exists: the file is removed and false
is returned. -/
theorem puflib_delete_nv_store_result_witness :
    ∃ s', puflib_delete_nv_store (specPlatform "/var/puf".toList "/".toList id)
        ⟨"ro".toList, 0⟩
        (State.init ⟨[("/var/puf/ro".toList, [1, 2])], ["/var/puf".toList]⟩ [])
        = .ok (false, s')
      ∧ s'.calls = [.remove "/var/puf/ro".toList]
      ∧ s'.fs = ⟨[], ["/var/puf".toList]⟩ := by
  obtain ⟨s', h1, h2, h3, _⟩ :=
    (puflib_delete_nv_store_result (specPlatform "/var/puf".toList "/".toList id)
      ⟨"ro".toList, 0⟩
      (State.init ⟨[("/var/puf/ro".toList, [1, 2])], ["/var/puf".toList]⟩ [])
      (by decide) (by decide) (by decide)).2.1 rfl (by decide)
  exact ⟨s', h1, h2, h3⟩

/-- The control flow of `puflib_create_nv_store` when the path is allocated, on
a platform whose separator has at most one character: the store root
directory tree is asked for first; if that fails nothing else is called, NULL
is returned and errno is what `free` made of the value the primitive set; if
it succeeds, create-and-open is called on StorePath in mode "r+", its stream
(or NULL) is returned and errno is the value that primitive left. -/
theorem puflib_create_nv_store_flow {FS File : Type} (P : Platform FS File)
    (M : module_info) (s : State FS) (hroot : IsCStr P.puflib_get_nv_store_path)
    (hsep : IsCStr P.puflib_get_path_sep) (hname : IsCStr M.name)
    (hlen : P.puflib_get_path_sep.length ≤ 1) (hf : s.malloc_fails = false) :
    ((P.puflib_create_directory_tree P.puflib_get_nv_store_path s.fs s.errno).val ≠ 0 →
      ∃ s', puflib_create_nv_store P M s = .ok (none, s')
        ∧ s'.calls = s.calls ++ [.create_directory_tree P.puflib_get_nv_store_path]
        ∧ s'.errno = P.free
            (P.puflib_create_directory_tree P.puflib_get_nv_store_path s.fs s.errno).errno)
    ∧ ((P.puflib_create_directory_tree P.puflib_get_nv_store_path s.fs s.errno).val = 0 →
      ∃ s', puflib_create_nv_store P M s
          = .ok ((P.puflib_create_and_open
              (StorePath P.puflib_get_nv_store_path P.puflib_get_path_sep M.name) "r+".toList
              (P.puflib_create_directory_tree P.puflib_get_nv_store_path s.fs s.errno).fs
              (P.puflib_create_directory_tree P.puflib_get_nv_store_path s.fs s.errno).errno).val,
            s')
        ∧ s'.calls = s.calls ++ [.create_directory_tree P.puflib_get_nv_store_path,
            .create_and_open
              (StorePath P.puflib_get_nv_store_path P.puflib_get_path_sep M.name) "r+".toList]
        ∧ s'.errno = (P.puflib_create_and_open
              (StorePath P.puflib_get_nv_store_path P.puflib_get_path_sep M.name) "r+".toList
              (P.puflib_create_directory_tree P.puflib_get_nv_store_path s.fs s.errno).fs
              (P.puflib_create_directory_tree P.puflib_get_nv_store_path s.fs s.errno).errno).errno
        ∧ s'.fs = (P.puflib_create_and_open
              (StorePath P.puflib_get_nv_store_path P.puflib_get_path_sep M.name) "r+".toList
              (P.puflib_create_directory_tree P.puflib_get_nv_store_path s.fs s.errno).fs
              (P.puflib_create_directory_tree P.puflib_get_nv_store_path s.fs s.errno).errno).fs) := by
  constructor
  · intro hrc
    unfold puflib_create_nv_store
    rw [get_nv_filename_of_succeeds P M s hf hroot hsep hname hlen]
    simp only [Outcome.bind, State.run, StorePath]
    rw [if_pos hrc]
    exact ⟨_, rfl, rfl, rfl⟩
  · intro hrc
    unfold puflib_create_nv_store
    rw [get_nv_filename_of_succeeds P M s hf hroot hsep hname hlen]
    simp only [Outcome.bind, State.run, StorePath]
    rw [if_neg (by simp [hrc])]
    exact ⟨_, rfl, by simp [State.free], rfl, rfl⟩

/-- C6 at the failing input: the store root "/var/puf" is a regular file, so
`puflib_create_directory_tree` fails and sets errno to EEXIST; on a libc whose
`free` changes errno (here to ENOMEM) `puflib_create_nv_store` returns NULL
with errno = ENOMEM, having called nothing after the directory primitive: the
branch at puflib.c:81-84 calls `free` without holding errno. -/
theorem puflib_create_nv_store_errno_lost :
    (spec_create_directory_tree "/".toList "/var/puf".toList
        ⟨[("/var/puf".toList, [])], []⟩ 0).errno = EEXIST
    ∧ ∃ s', puflib_create_nv_store
        (specPlatform "/var/puf".toList "/".toList (fun _ => ENOMEM)) ⟨"ro".toList, 0⟩
        (State.init ⟨[("/var/puf".toList, [])], []⟩ []) = .ok (none, s')
      ∧ s'.calls = [.create_directory_tree "/var/puf".toList]
      ∧ s'.errno = ENOMEM
      ∧ s'.errno ≠ EEXIST :=
  ⟨rfl, _, rfl, rfl, rfl, by decide⟩


/-! ## The filesystem of the platform layer -/

theorem content_put (fs : FileSystem) (path : List Char) (bytes : List Nat) :
    (fs.put path bytes).content path = some bytes := by
  simp [FileSystem.put, FileSystem.content]

theorem isFile_put (fs : FileSystem) (path : List Char) (bytes : List Nat) :
    (fs.put path bytes).isFile path = true := by
  simp [FileSystem.isFile, content_put]

theorem put_put (fs : FileSystem) (path : List Char) (a b : List Nat) :
    (fs.put path a).put path b = fs.put path b := by
  simp [FileSystem.put, List.filter_filter]

/-- A successful create-and-open hands back a stream at the start of the path
and leaves the file there, empty. -/
theorem spec_create_and_open_some {sep path mode : List Char} {fs : FileSystem}
    {errno : Int} {f : FILE}
    (h : (spec_create_and_open sep path mode fs errno).val = some f) :
    f = ⟨path, 0⟩ ∧ (spec_create_and_open sep path mode fs errno).fs = fs.put path [] := by
  unfold spec_create_and_open at h ⊢
  split at h
  · simp at h
  · split at h
    · split at h
      · simp_all
      · simp at h
    · simp_all

/-- Writing to a stream at the start of an empty file makes the bytes the
contents of the file. -/
theorem fwrite_fresh (fs : FileSystem) (path : List Char) (bytes : List Nat) :
    (fwrite bytes ⟨path, 0⟩ (fs.put path [])).2 = fs.put path bytes := by
  simp [fwrite, content_put, put_put]

/-- A successful directory-tree creation leaves the path and every directory
above it in place. -/
theorem spec_create_directory_tree_dirs {sep path : List Char} {fs : FileSystem}
    {errno : Int} (h : (spec_create_directory_tree sep path fs errno).val = 0) :
    ∀ d ∈ ancestors sep path ++ [path],
      (spec_create_directory_tree sep path fs errno).fs.isDir d = true := by
  unfold spec_create_directory_tree at h ⊢
  split at h
  · simp at h
  · split at h
    · simp at h
    · rename_i h1 h2
      rw [if_neg h1, if_neg h2]
      intro d hd
      by_cases hdir : fs.isDir d = true
      · simp only [FileSystem.isDir, decide_eq_true_eq] at hdir ⊢
        exact List.mem_append_left _ hdir
      · simp only [FileSystem.isDir, decide_eq_true_eq] at hdir ⊢
        apply List.mem_append_right
        rw [List.mem_filter]
        exact ⟨hd, by simpa [FileSystem.isDir] using hdir⟩

theorem under_self (sep path : List Char) : under sep path path = true := by
  simp [under]

/-- A successful tree deletion leaves neither a directory nor a file at the
path. -/
theorem spec_delete_tree_gone {sep path : List Char} {fs : FileSystem} {errno : Int}
    (h : (spec_delete_tree sep path fs errno).val = 0) :
    (spec_delete_tree sep path fs errno).fs.isDir path = false
    ∧ (spec_delete_tree sep path fs errno).fs.isFile path = false := by
  unfold spec_delete_tree at h ⊢
  split at h
  · rename_i h1
    rw [if_pos h1]
    constructor
    · simp [FileSystem.isDir, List.mem_filter, under_self]
    · simp only [FileSystem.isFile, FileSystem.content, Option.isSome_map']
      rw [Bool.eq_false_iff]
      intro hc
      rw [List.find?_isSome] at hc
      obtain ⟨e, he, hp⟩ := hc
      rw [List.mem_filter] at he
      have : e.1 = path := by simpa using hp
      rw [this, under_self] at he
      simp at he
  · simp at h


/-! ## Round trips through the store -/

/-- A call that completed did not run into a separator that overruns the block
(C strings, allocation succeeded). -/
theorem sep_fits_of_ok {FS File : Type} (P : Platform FS File) (M : module_info)
    (s : State FS) (hroot : IsCStr P.puflib_get_nv_store_path)
    (hsep : IsCStr P.puflib_get_path_sep) (hname : IsCStr M.name)
    (hf : s.malloc_fails = false) (hdef : get_nv_filename P M s ≠ .undefined) :
    P.puflib_get_path_sep.length ≤ 1 := by
  by_contra hl
  exact hdef (get_nv_filename_of_long_sep P M s hf hroot hsep hname (by omega))

/-- The control flow of `puflib_get_nv_store` when the path is allocated, on a
platform whose separator has at most one character: open-existing is called on
StorePath in mode "r+", its stream (or NULL) is returned and errno is the value
the primitive left. -/
theorem puflib_get_nv_store_flow {FS File : Type} (P : Platform FS File)
    (M : module_info) (s : State FS) (hroot : IsCStr P.puflib_get_nv_store_path)
    (hsep : IsCStr P.puflib_get_path_sep) (hname : IsCStr M.name)
    (hlen : P.puflib_get_path_sep.length ≤ 1) (hf : s.malloc_fails = false) :
    ∃ s', puflib_get_nv_store P M s
        = .ok ((P.puflib_open_existing
            (StorePath P.puflib_get_nv_store_path P.puflib_get_path_sep M.name) "r+".toList
            s.fs s.errno).val, s')
      ∧ s'.fs = (P.puflib_open_existing
            (StorePath P.puflib_get_nv_store_path P.puflib_get_path_sep M.name) "r+".toList
            s.fs s.errno).fs
      ∧ s'.errno = (P.puflib_open_existing
            (StorePath P.puflib_get_nv_store_path P.puflib_get_path_sep M.name) "r+".toList
            s.fs s.errno).errno
      ∧ s'.calls = s.calls ++ [.open_existing
            (StorePath P.puflib_get_nv_store_path P.puflib_get_path_sep M.name) "r+".toList] := by
  unfold puflib_get_nv_store
  rw [get_nv_filename_of_succeeds P M s hf hroot hsep hname hlen]
  exact ⟨_, rfl, rfl, rfl, rfl⟩

/-- C7 fails when the path allocation of the second call fails: the store is
created and written, and `puflib_get_nv_store` then returns NULL with
errno = ENOMEM. -/
theorem nv_store_round_trip_oom_counterexample :
    ∃ f s1 s3,
      puflib_create_nv_store (specPlatform "/var/puf".toList "/".toList id)
        ⟨"ro".toList, 0⟩ (State.init ⟨[], []⟩ [true, false]) = .ok (some f, s1)
      ∧ puflib_get_nv_store (specPlatform "/var/puf".toList "/".toList id)
        ⟨"ro".toList, 0⟩
        { s1 with fs := fclose (fwrite [1, 2, 3] f s1.fs).1 (fwrite [1, 2, 3] f s1.fs).2 }
        = .ok (none, s3)
      ∧ s3.errno = ENOMEM :=
  ⟨_, _, _, rfl, rfl, rfl⟩

/-- C7, amended. Over the filesystem of the platform layer, for every module
and every byte sequence `B` (C strings throughout): if
`puflib_create_nv_store` returns a stream, `B` is written to it and it is
closed, then in any state with that filesystem `puflib_get_nv_store` returns a
stream whose contents read back as exactly `B` provided its path allocation
succeeds, and returns NULL with errno = ENOMEM when that allocation fails. -/
theorem nv_store_round_trip (nvstore sep : List Char) (free_errno : Int → Int)
    (M : module_info) (B : List Nat) (s s1 s2 : State FileSystem) (f : FILE)
    (hroot : IsCStr nvstore) (hsep : IsCStr sep) (hname : IsCStr M.name)
    (hcreate : puflib_create_nv_store (specPlatform nvstore sep free_errno) M s
      = .ok (some f, s1))
    (hfs : s2.fs = fclose (fwrite B f s1.fs).1 (fwrite B f s1.fs).2) :
    (s2.malloc_fails = false →
      ∃ g s3, puflib_get_nv_store (specPlatform nvstore sep free_errno) M s2
          = .ok (some g, s3)
        ∧ fread_all g s3.fs = B)
    ∧ (s2.malloc_fails = true →
      ∃ s3, puflib_get_nv_store (specPlatform nvstore sep free_errno) M s2 = .ok (none, s3)
        ∧ s3.errno = ENOMEM) := by
  have hroot' : IsCStr (specPlatform nvstore sep free_errno).puflib_get_nv_store_path := hroot
  have hsep' : IsCStr (specPlatform nvstore sep free_errno).puflib_get_path_sep := hsep
  -- the first call allocated its path and stayed within the block
  have hf : s.malloc_fails = false := by
    by_contra hc
    have hc' : s.malloc_fails = true := by simpa using hc
    unfold puflib_create_nv_store at hcreate
    rw [get_nv_filename_of_fails _ M s hc'] at hcreate
    simp [Outcome.bind] at hcreate
  have hlen : (specPlatform nvstore sep free_errno).puflib_get_path_sep.length ≤ 1 := by
    apply sep_fits_of_ok _ M s hroot' hsep' hname hf
    intro hu
    unfold puflib_create_nv_store at hcreate
    rw [hu] at hcreate
    simp [Outcome.bind] at hcreate
  obtain ⟨hfail, hok⟩ :=
    puflib_create_nv_store_flow (specPlatform nvstore sep free_errno) M s hroot' hsep' hname
      hlen hf
  -- what the first call left in the filesystem
  have hfile : f = ⟨StorePath nvstore sep M.name, 0⟩
      ∧ ∃ fs0 : FileSystem, s1.fs = fs0.put (StorePath nvstore sep M.name) [] := by
    by_cases hrc : ((specPlatform nvstore sep free_errno).puflib_create_directory_tree
        (specPlatform nvstore sep free_errno).puflib_get_nv_store_path s.fs s.errno).val = 0
    · obtain ⟨s', h1, _, _, h4⟩ := hok hrc
      rw [h1] at hcreate
      injection hcreate with hcreate
      injection hcreate with hval hst
      obtain ⟨e1, e2⟩ :=
        @spec_create_and_open_some sep (StorePath nvstore sep M.name) "r+".toList _ _ f hval
      subst hst
      exact ⟨e1, _, h4.trans e2⟩
    · obtain ⟨s', h1, _, _⟩ := hfail hrc
      rw [h1] at hcreate
      injection hcreate with hcreate
      injection hcreate with hval _
      cases hval
  obtain ⟨hfeq, fs0, hs1⟩ := hfile
  have hs2 : s2.fs = fs0.put (StorePath nvstore sep M.name) B := by
    rw [hfs, hfeq, hs1, fclose, fwrite_fresh]
  constructor
  · intro hf2
    obtain ⟨s3, h1, h2, _, _⟩ :=
      puflib_get_nv_store_flow (specPlatform nvstore sep free_errno) M s2 hroot' hsep' hname
        hlen hf2
    have hopen : spec_open_existing (StorePath nvstore sep M.name) "r+".toList s2.fs s2.errno
        = ⟨some ⟨StorePath nvstore sep M.name, 0⟩, s2.fs, s2.errno⟩ := by
      unfold spec_open_existing
      rw [if_pos]
      rw [hs2]; exact isFile_put _ _ _
    have hopen' : (specPlatform nvstore sep free_errno).puflib_open_existing
        (StorePath (specPlatform nvstore sep free_errno).puflib_get_nv_store_path
          (specPlatform nvstore sep free_errno).puflib_get_path_sep M.name) "r+".toList
        s2.fs s2.errno
        = ⟨some ⟨StorePath nvstore sep M.name, 0⟩, s2.fs, s2.errno⟩ := hopen
    rw [hopen'] at h1 h2
    refine ⟨⟨StorePath nvstore sep M.name, 0⟩, s3, h1, ?_⟩
    rw [h2]
    simp only [fread_all, hs2, content_put]
    rfl
  · intro hf2
    unfold puflib_get_nv_store
    rw [get_nv_filename_of_fails _ M s2 hf2]
    exact ⟨_, rfl, rfl⟩

/-- C7, amended, at store root "/var/puf", module "ro" and the bytes 1, 2, 3. -/
theorem nv_store_round_trip_witness :
    ∃ g s3, puflib_get_nv_store (specPlatform "/var/puf".toList "/".toList id)
        ⟨"ro".toList, 0⟩
        { State.init ⟨[("/var/puf/ro".toList, [1, 2, 3])],
            ["/var".toList, "/var/puf".toList]⟩ [] with
          calls := [.create_directory_tree "/var/puf".toList,
            .create_and_open "/var/puf/ro".toList "r+".toList] }
        = .ok (some g, s3)
      ∧ fread_all g s3.fs = [1, 2, 3] :=
  (nv_store_round_trip "/var/puf".toList "/".toList id ⟨"ro".toList, 0⟩ [1, 2, 3]
    (State.init ⟨[], []⟩ [])
    { State.init ⟨[("/var/puf/ro".toList, [])], ["/var".toList, "/var/puf".toList]⟩ [] with
      calls := [.create_directory_tree "/var/puf".toList,
        .create_and_open "/var/puf/ro".toList "r+".toList] }
    { State.init ⟨[("/var/puf/ro".toList, [1, 2, 3])],
        ["/var".toList, "/var/puf".toList]⟩ [] with
      calls := [.create_directory_tree "/var/puf".toList,
        .create_and_open "/var/puf/ro".toList "r+".toList] }
    ⟨"/var/puf/ro".toList, 0⟩ (by decide) (by decide) (by decide) rfl rfl).1 rfl


/-! ## Round trips through the directory store -/

/-- The control flow of `puflib_create_nv_store_dir` when the path is
allocated, on a platform whose separator has at most one character. -/
theorem puflib_create_nv_store_dir_flow {FS File : Type} (P : Platform FS File)
    (M : module_info) (s : State FS) (hroot : IsCStr P.puflib_get_nv_store_path)
    (hsep : IsCStr P.puflib_get_path_sep) (hname : IsCStr M.name)
    (hlen : P.puflib_get_path_sep.length ≤ 1) (hf : s.malloc_fails = false) :
    ((P.puflib_create_directory_tree
        (StorePath P.puflib_get_nv_store_path P.puflib_get_path_sep M.name)
        s.fs s.errno).val ≠ 0 →
      ∃ s', puflib_create_nv_store_dir P M s = .ok (none, s')
        ∧ s'.errno = (P.puflib_create_directory_tree
            (StorePath P.puflib_get_nv_store_path P.puflib_get_path_sep M.name)
            s.fs s.errno).errno)
    ∧ ((P.puflib_create_directory_tree
        (StorePath P.puflib_get_nv_store_path P.puflib_get_path_sep M.name)
        s.fs s.errno).val = 0 →
      ∃ s', puflib_create_nv_store_dir P M s
          = .ok (some (StorePath P.puflib_get_nv_store_path P.puflib_get_path_sep M.name), s')
        ∧ s'.fs = (P.puflib_create_directory_tree
            (StorePath P.puflib_get_nv_store_path P.puflib_get_path_sep M.name)
            s.fs s.errno).fs) := by
  constructor
  · intro hrc
    unfold puflib_create_nv_store_dir
    rw [get_nv_filename_of_succeeds P M s hf hroot hsep hname hlen]
    simp only [Outcome.bind, State.run, StorePath] at hrc ⊢
    rw [if_pos hrc]
    exact ⟨_, rfl, rfl⟩
  · intro hrc
    unfold puflib_create_nv_store_dir
    rw [get_nv_filename_of_succeeds P M s hf hroot hsep hname hlen]
    simp only [Outcome.bind, State.run, StorePath] at hrc ⊢
    rw [if_neg (fun hne => hne hrc)]
    exact ⟨_, rfl, rfl⟩

/-- The control flow of `puflib_get_nv_store_dir` when the path is allocated,
on a platform whose separator has at most one character. -/
theorem puflib_get_nv_store_dir_flow {FS File : Type} (P : Platform FS File)
    (M : module_info) (s : State FS) (hroot : IsCStr P.puflib_get_nv_store_path)
    (hsep : IsCStr P.puflib_get_path_sep) (hname : IsCStr M.name)
    (hlen : P.puflib_get_path_sep.length ≤ 1) (hf : s.malloc_fails = false) :
    ((P.puflib_check_access
        (StorePath P.puflib_get_nv_store_path P.puflib_get_path_sep M.name) 1
        s.fs s.errno).val ≠ 0 →
      ∃ s', puflib_get_nv_store_dir P M s = .ok (none, s') ∧ s'.errno = EACCES)
    ∧ ((P.puflib_check_access
        (StorePath P.puflib_get_nv_store_path P.puflib_get_path_sep M.name) 1
        s.fs s.errno).val = 0 →
      ∃ s', puflib_get_nv_store_dir P M s
        = .ok (some (StorePath P.puflib_get_nv_store_path P.puflib_get_path_sep M.name), s')) := by
  constructor
  · intro hrc
    unfold puflib_get_nv_store_dir
    rw [get_nv_filename_of_succeeds P M s hf hroot hsep hname hlen]
    simp only [Outcome.bind, State.run, StorePath] at hrc ⊢
    rw [if_pos hrc]
    exact ⟨_, rfl, rfl⟩
  · intro hrc
    unfold puflib_get_nv_store_dir
    rw [get_nv_filename_of_succeeds P M s hf hroot hsep hname hlen]
    simp only [Outcome.bind, State.run, StorePath] at hrc ⊢
    rw [if_neg (fun hne => hne hrc)]
    exact ⟨_, rfl⟩

/-- The control flow of `puflib_delete_nv_store_dir` when the path is
allocated, on a platform whose separator has at most one character. -/
theorem puflib_delete_nv_store_dir_flow {FS File : Type} (P : Platform FS File)
    (M : module_info) (s : State FS) (hroot : IsCStr P.puflib_get_nv_store_path)
    (hsep : IsCStr P.puflib_get_path_sep) (hname : IsCStr M.name)
    (hlen : P.puflib_get_path_sep.length ≤ 1) (hf : s.malloc_fails = false) :
    ((P.puflib_delete_tree
        (StorePath P.puflib_get_nv_store_path P.puflib_get_path_sep M.name)
        s.fs s.errno).val ≠ 0 →
      ∃ s', puflib_delete_nv_store_dir P M s = .ok (true, s')
        ∧ s'.errno = (P.puflib_delete_tree
            (StorePath P.puflib_get_nv_store_path P.puflib_get_path_sep M.name)
            s.fs s.errno).errno)
    ∧ ((P.puflib_delete_tree
        (StorePath P.puflib_get_nv_store_path P.puflib_get_path_sep M.name)
        s.fs s.errno).val = 0 →
      ∃ s', puflib_delete_nv_store_dir P M s = .ok (false, s')
        ∧ s'.fs = (P.puflib_delete_tree
            (StorePath P.puflib_get_nv_store_path P.puflib_get_path_sep M.name)
            s.fs s.errno).fs) := by
  constructor
  · intro hrc
    unfold puflib_delete_nv_store_dir
    rw [get_nv_filename_of_succeeds P M s hf hroot hsep hname hlen]
    simp only [Outcome.bind, State.run, StorePath] at hrc ⊢
    rw [if_pos hrc]
    exact ⟨_, rfl, rfl⟩
  · intro hrc
    unfold puflib_delete_nv_store_dir
    rw [get_nv_filename_of_succeeds P M s hf hroot hsep hname hlen]
    simp only [Outcome.bind, State.run, StorePath] at hrc ⊢
    rw [if_neg (fun hne => hne hrc)]
    exact ⟨_, rfl, rfl⟩

/-- When the allocation fails `puflib_get_nv_store_dir` returns NULL with
errno = ENOMEM. -/
theorem puflib_get_nv_store_dir_oom {FS File : Type} (P : Platform FS File)
    (M : module_info) (s : State FS) (hf : s.malloc_fails = true) :
    ∃ s', puflib_get_nv_store_dir P M s = .ok (none, s') ∧ s'.errno = ENOMEM := by
  unfold puflib_get_nv_store_dir
  rw [get_nv_filename_of_fails P M s hf]
  exact ⟨_, rfl, rfl⟩

/-- C8 fails when the path allocation of the second call fails: the directory
is created, and the `puflib_get_nv_store_dir` that follows immediately returns
NULL, with errno = ENOMEM rather than EACCES. -/
theorem nv_store_dir_oom_counterexample :
    ∃ p s1 s3,
      puflib_create_nv_store_dir (specPlatform "/var/puf".toList "/".toList id)
        ⟨"ro".toList, 0⟩ (State.init ⟨[], []⟩ [true, false]) = .ok (some p, s1)
      ∧ puflib_get_nv_store_dir (specPlatform "/var/puf".toList "/".toList id)
        ⟨"ro".toList, 0⟩ s1 = .ok (none, s3)
      ∧ s3.errno = ENOMEM
      ∧ s3.errno ≠ EACCES :=
  ⟨_, _, _, rfl, rfl, rfl, by decide⟩


/-- C8, amended. Over the filesystem of the platform layer, for every module
(C strings throughout) and every state `s2` that has the filesystem the first
call left:
if `puflib_create_nv_store_dir` returns a path, that path is StorePath
(`root ++ separator ++ name`), it and every directory above it exist, and
`puflib_get_nv_store_dir` returns the same path provided its path allocation
succeeds (NULL with errno = ENOMEM when it fails);
if `puflib_delete_nv_store_dir` returns false (success),
`puflib_get_nv_store_dir` returns NULL, with errno = EACCES when its path
allocation succeeds and errno = ENOMEM when it fails. -/
theorem nv_store_dir_round_trip (nvstore sep : List Char) (free_errno : Int → Int)
    (M : module_info) (s s1 s2 : State FileSystem)
    (hroot : IsCStr nvstore) (hsep : IsCStr sep) (hname : IsCStr M.name)
    (hfs : s2.fs = s1.fs) :
    (∀ p, puflib_create_nv_store_dir (specPlatform nvstore sep free_errno) M s
        = .ok (some p, s1) →
      p = nvstore ++ sep ++ M.name
      ∧ (∀ d ∈ ancestors sep p ++ [p], s1.fs.isDir d = true)
      ∧ (s2.malloc_fails = false →
          ∃ s3, puflib_get_nv_store_dir (specPlatform nvstore sep free_errno) M s2
            = .ok (some p, s3))
      ∧ (s2.malloc_fails = true →
          ∃ s3, puflib_get_nv_store_dir (specPlatform nvstore sep free_errno) M s2
              = .ok (none, s3)
            ∧ s3.errno = ENOMEM))
    ∧ (puflib_delete_nv_store_dir (specPlatform nvstore sep free_errno) M s
        = .ok (false, s1) →
      (s2.malloc_fails = false →
          ∃ s3, puflib_get_nv_store_dir (specPlatform nvstore sep free_errno) M s2
              = .ok (none, s3)
            ∧ s3.errno = EACCES)
      ∧ (s2.malloc_fails = true →
          ∃ s3, puflib_get_nv_store_dir (specPlatform nvstore sep free_errno) M s2
              = .ok (none, s3)
            ∧ s3.errno = ENOMEM)) := by
  have hroot' : IsCStr (specPlatform nvstore sep free_errno).puflib_get_nv_store_path := hroot
  have hsep' : IsCStr (specPlatform nvstore sep free_errno).puflib_get_path_sep := hsep
  constructor
  · intro p hcreate
    have hf : s.malloc_fails = false := by
      by_contra hc
      have hc' : s.malloc_fails = true := by simpa using hc
      unfold puflib_create_nv_store_dir at hcreate
      rw [get_nv_filename_of_fails _ M s hc'] at hcreate
      simp [Outcome.bind] at hcreate
    have hlen : (specPlatform nvstore sep free_errno).puflib_get_path_sep.length ≤ 1 := by
      apply sep_fits_of_ok _ M s hroot' hsep' hname hf
      intro hu
      unfold puflib_create_nv_store_dir at hcreate
      rw [hu] at hcreate
      simp [Outcome.bind] at hcreate
    obtain ⟨hfail, hok⟩ :=
      puflib_create_nv_store_dir_flow (specPlatform nvstore sep free_errno) M s hroot' hsep'
        hname hlen hf
    by_cases hrc : (spec_create_directory_tree sep (StorePath nvstore sep M.name)
        s.fs s.errno).val = 0
    · obtain ⟨s', h1, h2⟩ := hok hrc
      rw [h1] at hcreate
      injection hcreate with hcreate
      injection hcreate with hval hst
      injection hval with hval
      subst hst
      have hp : p = nvstore ++ sep ++ M.name := hval.symm
      have hdirs := spec_create_directory_tree_dirs hrc
      have h2' : s'.fs = (spec_create_directory_tree sep (StorePath nvstore sep M.name)
          s.fs s.errno).fs := h2
      rw [← h2'] at hdirs
      have hdirs' : ∀ d ∈ ancestors sep p ++ [p], s'.fs.isDir d = true := by
        rw [hp]; exact hdirs
      refine ⟨hp, hdirs', ?_, ?_⟩
      · intro hf2
        have hacc : (spec_check_access (StorePath nvstore sep M.name) 1 s2.fs s2.errno).val
            = 0 := by
          unfold spec_check_access
          rw [if_pos]
          rw [hfs, hdirs (StorePath nvstore sep M.name) (by simp [StorePath])]
          simp
        obtain ⟨s3, h3⟩ :=
          (puflib_get_nv_store_dir_flow (specPlatform nvstore sep free_errno) M s2 hroot'
            hsep' hname hlen hf2).2 hacc
        exact ⟨s3, by rw [h3, hp]; rfl⟩
      · intro hf2
        exact puflib_get_nv_store_dir_oom _ M s2 hf2
    · obtain ⟨s', h1, _⟩ := hfail hrc
      rw [h1] at hcreate
      injection hcreate with hcreate
      injection hcreate with hval _
      cases hval
  · intro hdelete
    have hf : s.malloc_fails = false := by
      by_contra hc
      have hc' : s.malloc_fails = true := by simpa using hc
      unfold puflib_delete_nv_store_dir at hdelete
      rw [get_nv_filename_of_fails _ M s hc'] at hdelete
      simp [Outcome.bind] at hdelete
    have hlen : (specPlatform nvstore sep free_errno).puflib_get_path_sep.length ≤ 1 := by
      apply sep_fits_of_ok _ M s hroot' hsep' hname hf
      intro hu
      unfold puflib_delete_nv_store_dir at hdelete
      rw [hu] at hdelete
      simp [Outcome.bind] at hdelete
    obtain ⟨hfail, hok⟩ :=
      puflib_delete_nv_store_dir_flow (specPlatform nvstore sep free_errno) M s hroot' hsep'
        hname hlen hf
    by_cases hrc : (spec_delete_tree sep (StorePath nvstore sep M.name) s.fs s.errno).val = 0
    · obtain ⟨s', h1, h2⟩ := hok hrc
      rw [h1] at hdelete
      injection hdelete with hdelete
      injection hdelete with _ hst
      subst hst
      have hgone := spec_delete_tree_gone hrc
      have h2' : s'.fs = (spec_delete_tree sep (StorePath nvstore sep M.name)
          s.fs s.errno).fs := h2
      rw [← h2'] at hgone
      constructor
      · intro hf2
        have hacc : (spec_check_access (StorePath nvstore sep M.name) 1 s2.fs s2.errno).val
            ≠ 0 := by
          unfold spec_check_access
          rw [if_neg (by rw [hfs, hgone.1, hgone.2]; simp)]
          simp
        exact (puflib_get_nv_store_dir_flow (specPlatform nvstore sep free_errno) M s2 hroot'
            hsep' hname hlen hf2).1 hacc
      · intro hf2
        exact puflib_get_nv_store_dir_oom _ M s2 hf2
    · obtain ⟨s', h1, _⟩ := hfail hrc
      rw [h1] at hdelete
      injection hdelete with hdelete
      injection hdelete with hval _
      cases hval

/-- C8, amended, at store root "/var/puf" and module "ro" on an empty
filesystem: the directory is created with the directories above it, and the
call that follows immediately returns the same path. -/
theorem nv_store_dir_round_trip_witness :
    (∀ d ∈ ["/var".toList, "/var/puf".toList, "/var/puf/ro".toList],
      FileSystem.isDir
        ⟨[], ["/var".toList, "/var/puf".toList, "/var/puf/ro".toList]⟩ d = true)
    ∧ ∃ s3, puflib_get_nv_store_dir (specPlatform "/var/puf".toList "/".toList id)
        ⟨"ro".toList, 0⟩
        { State.init ⟨[], ["/var".toList, "/var/puf".toList, "/var/puf/ro".toList]⟩ [] with
          calls := [.create_directory_tree "/var/puf/ro".toList] }
        = .ok (some "/var/puf/ro".toList, s3) :=
  ⟨((nv_store_dir_round_trip "/var/puf".toList "/".toList id ⟨"ro".toList, 0⟩
      (State.init ⟨[], []⟩ [])
      { State.init ⟨[], ["/var".toList, "/var/puf".toList, "/var/puf/ro".toList]⟩ [] with
        calls := [.create_directory_tree "/var/puf/ro".toList] }
      { State.init ⟨[], ["/var".toList, "/var/puf".toList, "/var/puf/ro".toList]⟩ [] with
        calls := [.create_directory_tree "/var/puf/ro".toList] }
      (by decide) (by decide) (by decide) rfl).1 "/var/puf/ro".toList rfl).2.1,
   ((nv_store_dir_round_trip "/var/puf".toList "/".toList id ⟨"ro".toList, 0⟩
      (State.init ⟨[], []⟩ [])
      { State.init ⟨[], ["/var".toList, "/var/puf".toList, "/var/puf/ro".toList]⟩ [] with
        calls := [.create_directory_tree "/var/puf/ro".toList] }
      { State.init ⟨[], ["/var".toList, "/var/puf".toList, "/var/puf/ro".toList]⟩ [] with
        calls := [.create_directory_tree "/var/puf/ro".toList] }
      (by decide) (by decide) (by decide) rfl).1 "/var/puf/ro".toList rfl).2.2.1 rfl⟩

end PUFlib
